import Mathlib

/-!
System dependent resource gathering for AIX (`src/process/sysdep_AIX.c`).

A shallow embedding of the four samplers of `sysdep_AIX.c`

* `getloadavg_sysdep`         (load averages),
* `used_system_cpu_sysdep`    (CPU delta sampler, stateful through the `cpu_*_old` statics),
* `initprocesstree_sysdep`    (process tree snapshot),
* `used_system_memory_sysdep` (memory and swap sampler with its `goto again` retry),

followed by the properties of these functions.

Conventions of the embedding.

* `unsigned long long` values are naturals below `2 ^ 64`; every operation that can leave
  that range is reduced modulo `2 ^ 64` explicitly.
* `unsigned long` has `W` bits; `W` is a parameter (32 or 64 on AIX).
* C `int` values that the kernel only ever reports non-negative (`page_size`, `ncpus`) are
  naturals.
* `double` is IEEE-754 binary64 restricted to the finite non-negative values that these
  functions can produce; every operation rounds to nearest, ties to even (`roundNE`).
* A kernel query is an input of the function: its return code together with the buffer
  contents it leaves behind.
* `none` stands for a run that does not return normally: an integer division by zero, or a
  retry loop that has not finished within the given fuel.
-/

set_option maxRecDepth 100000

namespace SysdepAIX

/-! ## Machine arithmetic -/

/-- Number of values of an `unsigned long long`. -/
def U64 : Nat := 2 ^ 64

/-- Unsigned 64-bit subtraction `a - b`, wrapping modulo `2 ^ 64`. -/
def sub64 (a b : Nat) : Nat := (a % U64 + (U64 - b % U64)) % U64

/-- The value `TRUE` of `monitor.h` (the header is not part of the sources; the usual C value). -/
def TRUE : Int := 1

/-- The value `FALSE` of `monitor.h` (the header is not part of the sources; the usual C value). -/
def FALSE : Int := 0

/-! ## Binary64 arithmetic on finite non-negative values -/

/-- A finite non-negative `double`, the rational `num / den` with `den` a power of two. -/
structure F64 where
  num : Nat
  den : Nat
deriving DecidableEq, Repr

/-- Index of the highest set bit of `n` (0 for `n < 2`); the first argument bounds the recursion. -/
def ilog2 : Nat → Nat → Nat
  | 0, _ => 0
  | fuel + 1, n => if n < 2 then 0 else ilog2 fuel (n / 2) + 1

/-- Power of two by which the denominator is scaled so that `n / d` has at most 53 bits. -/
def scaleDown (n d : Nat) : Nat := ilog2 n n - (ilog2 d d + 52)

/-- Power of two by which the numerator is scaled so that `n / d` has at least 53 bits. -/
def scaleUp (n d : Nat) : Nat :=
  let su0 := (ilog2 d d + 52) - ilog2 n n
  if n * 2 ^ su0 < d * 2 ^ scaleDown n d * 2 ^ 52 then su0 + 1 else su0

/-- Rounding of the rational `n / d` (`d > 0`) to a 53-bit significand, to nearest, ties to even.
The exponent is unbounded: no value of this file reaches the overflow or the subnormal range. -/
def roundNE (n d : Nat) : F64 :=
  if n = 0 then ⟨0, 1⟩
  else
    let N := n * 2 ^ scaleUp n d
    let D := d * 2 ^ scaleDown n d
    let q := N / D
    let r := N % D
    let q' := if D < 2 * r ∨ (2 * r = D ∧ q % 2 = 1) then q + 1 else q
    ⟨q' * 2 ^ scaleDown n d, 2 ^ scaleUp n d⟩

/-- Conversion of an unsigned integer to `double`. -/
def F64.ofNat (x : Nat) : F64 := roundNE x 1

/-- Quotient `x / y` of two doubles. -/
def F64.div (x y : F64) : F64 := roundNE (x.num * y.den) (x.den * y.num)

/-- Product `x * y` of two doubles. -/
def F64.mul (x y : F64) : F64 := roundNE (x.num * y.num) (x.den * y.den)

/-- Sum `x + y` of two doubles. -/
def F64.add (x y : F64) : F64 := roundNE (x.num * y.den + y.num * x.den) (x.den * y.den)

/-- Conversion of a double to an integer type: truncation. C leaves the conversion undefined
when the truncated value does not fit the target type; the model keeps the truncated value. -/
def F64.toNat (x : F64) : Nat := x.num / x.den

/-- The literal `1.0e-6`: the binary64 value nearest to `1 / 10 ^ 6`. -/
def F64.micro : F64 := roundNE 1 (10 ^ 6)

/-! ## Data model -/

/-- The fields of `SystemInfo_T` written by this file. The type is declared in `monitor.h`,
which is not part of the sources.
Modelled from the spec: the three CPU percentages are integers in tenths of a percent
(1000 = 100.0%), the memory and swap fields are `unsigned long` kilobyte counts. -/
structure SystemInfo_T where
  swap_kbyte_max : Nat
  total_mem_kbyte : Nat
  total_swap_kbyte : Nat
  total_cpu_user_percent : Int
  total_cpu_syst_percent : Int
  total_cpu_wait_percent : Int
deriving DecidableEq, Repr

/-- The fields of `perfstat_cpu_total_t` read by `used_system_cpu_sysdep`:
four `u_longlong_t` tick counters and the `int` core count. -/
structure perfstat_cpu_total_t where
  user : Nat
  sys : Nat
  wait : Nat
  idle : Nat
  ncpus : Nat
deriving DecidableEq, Repr

/-- One answer of `perfstat_cpu_total`: the return code and the buffer it leaves. -/
structure CpuQuery where
  rc : Int
  cpu : perfstat_cpu_total_t
deriving DecidableEq, Repr

/-- The file-level statics `cpu_initialized`, `cpu_total_old`, `cpu_user_old`,
`cpu_syst_old`, `cpu_wait_old`. -/
structure CpuState where
  cpu_initialized : Bool
  cpu_total_old : Nat
  cpu_user_old : Nat
  cpu_syst_old : Nat
  cpu_wait_old : Nat
deriving DecidableEq, Repr

/-- The statics as the C initialisers leave them at program start. -/
def CpuState.start : CpuState :=
  { cpu_initialized := false, cpu_total_old := 0, cpu_user_old := 0,
    cpu_syst_old := 0, cpu_wait_old := 0 }

/-- The fields of `perfstat_memory_total_t` read by `used_system_memory_sysdep` (`u_longlong_t`). -/
structure perfstat_memory_total_t where
  real_total : Nat
  real_free : Nat
  numperm : Nat
deriving DecidableEq, Repr

/-- One answer of `perfstat_memory_total`: the return code and the buffer it leaves. -/
structure MemQuery where
  rc : Int
  mem : perfstat_memory_total_t
deriving DecidableEq, Repr

/-- The fields of `struct swapent` read by the swap loop. -/
structure swapent where
  ste_flags : Nat
  ste_pages : Nat
  ste_free : Nat
deriving DecidableEq, Repr

/-- One pass through the `again:` block as the kernel answers it: `count` is the result of
`swapctl(SC_GETNSWP, 0)` (`none` for -1), `list` the entries filled by `swapctl(SC_LIST, s)`,
whose number is the return value `n` (`none` for a negative return). -/
structure SwapAttempt where
  count : Option Nat
  list : Option (List swapent)
deriving DecidableEq, Repr

/-- The fields of `struct procentry64` read by `initprocesstree_sysdep`. -/
structure procentry64 where
  pi_pid : Int
  pi_ppid : Int
  pi_start : Int
  pi_state : Nat
deriving DecidableEq, Repr

/-- The fields of `struct userinfo` read by `initprocesstree_sysdep`: the resident set sizes
and `ui_ru.ru_utime`, `ui_ru.ru_stime` as seconds and microseconds. -/
structure userinfo where
  ui_drss : Nat
  ui_trss : Nat
  utime_sec : Nat
  utime_usec : Nat
  stime_sec : Nat
  stime_usec : Nat
deriving DecidableEq, Repr

/-- The fields of `ProcessTree_T` written by `initprocesstree_sysdep`. -/
structure ProcessTree_T where
  pid : Int
  ppid : Int
  starttime : Int
  cputime : Int
  cpu_percent : Int
  mem_kbyte : Nat
  status_flag : Nat
deriving DecidableEq, Repr

/-! ## `used_system_cpu_sysdep` -/

/-- The expression `1000 * ((double)delta / (double)total)` stored into an integer field.
The value is the truncated product. The field is a C `int`, and C leaves the conversion
undefined when the truncated product does not fit it; the statements below only rely on
values between 0 and 3000. -/
def cpu_percent_of (delta total : Nat) : Int :=
  ((F64.mul (F64.ofNat 1000) (F64.div (F64.ofNat delta) (F64.ofNat total))).toNat : Int)

/-- The local `cpu_total_new`: `(cpu.user + cpu.sys + cpu.wait + cpu.idle) / cpu.ncpus`. -/
def cpu_total_new (c : perfstat_cpu_total_t) : Nat :=
  ((c.user + c.sys + c.wait + c.idle) % U64) / c.ncpus

/-- The local `cpu_total`: `cpu_total_new - cpu_total_old` in `unsigned long long`. -/
def cpu_total_delta (st : CpuState) (c : perfstat_cpu_total_t) : Nat :=
  sub64 (cpu_total_new c) st.cpu_total_old

/-- The function `used_system_cpu_sysdep`: from the statics, the output record and the answer
of `perfstat_cpu_total` to the return value, the new statics and the new output record.
`none` is the integer division by a zero core count. -/
def used_system_cpu_sysdep (st : CpuState) (si : SystemInfo_T) (q : CpuQuery) :
    Option (Int × CpuState × SystemInfo_T) :=
  if q.rc < 0 then some (-1, st, si)
  else if q.cpu.ncpus = 0 then none
  else
    let cpu_total := cpu_total_delta st q.cpu
    let cpu_user := q.cpu.user / q.cpu.ncpus
    let cpu_syst := q.cpu.sys / q.cpu.ncpus
    let cpu_wait := q.cpu.wait / q.cpu.ncpus
    let si' : SystemInfo_T :=
      if st.cpu_initialized then
        if 0 < cpu_total then
          { si with
            total_cpu_user_percent := cpu_percent_of (sub64 cpu_user st.cpu_user_old) cpu_total
            total_cpu_syst_percent := cpu_percent_of (sub64 cpu_syst st.cpu_syst_old) cpu_total
            total_cpu_wait_percent := cpu_percent_of (sub64 cpu_wait st.cpu_wait_old) cpu_total }
        else
          { si with
            total_cpu_user_percent := 0
            total_cpu_syst_percent := 0
            total_cpu_wait_percent := 0 }
      else si
    some (TRUE,
      { cpu_initialized := true, cpu_total_old := cpu_total_new q.cpu, cpu_user_old := cpu_user,
        cpu_syst_old := cpu_syst, cpu_wait_old := cpu_wait },
      si')

/-- Consecutive calls of `used_system_cpu_sysdep`, one per answer of the kernel, each starting
from the statics and the record the previous call left. -/
def cpu_calls (st : CpuState) (si : SystemInfo_T) : List CpuQuery → Option (CpuState × SystemInfo_T)
  | [] => some (st, si)
  | q :: qs =>
    match used_system_cpu_sysdep st si q with
    | none => none
    | some (_, st', si') => cpu_calls st' si' qs

/-! ## `initprocesstree_sysdep` -/

/-- The expression `(ru_utime.tv_sec + ru_utime.tv_usec * 1.0e-6 + ru_stime.tv_sec
+ ru_stime.tv_usec * 1.0e-6) * 10` stored into the integer field `cputime`. -/
def cputime_of (u : userinfo) : Int :=
  ((F64.mul
      (F64.add
        (F64.add
          (F64.add (F64.ofNat u.utime_sec) (F64.mul (F64.ofNat u.utime_usec) F64.micro))
          (F64.ofNat u.stime_sec))
        (F64.mul (F64.ofNat u.stime_usec) F64.micro))
      (F64.ofNat 10)).toNat : Int)

/-- The body of the `for` loop for index `i`: the entry `pt[i]` built from `procs[i]`.
The storage comes zeroed from `xcalloc`. The usage query `getuser` is answered by the oracle
`getuser`, indexed by the iteration that asks (`none` for the return value -1). -/
def tree_entry (W page_size SZOMB PROCESS_ZOMBIE : Nat) (getuser : Nat → Option userinfo)
    (i : Nat) (p : procentry64) : ProcessTree_T :=
  let pt : ProcessTree_T :=
    { pid := p.pi_pid, ppid := p.pi_ppid, starttime := p.pi_start,
      cputime := 0, cpu_percent := 0, mem_kbyte := 0, status_flag := 0 }
  if p.pi_state = SZOMB then
    { pt with status_flag := pt.status_flag ||| PROCESS_ZOMBIE }
  else
    match getuser i with
    | some user =>
      { pt with
        mem_kbyte := ((user.ui_drss + user.ui_trss) % 2 ^ W * (page_size / 1024)) % 2 ^ W
        cputime := cputime_of user }
    | none => pt

/-- The `for` loop over the records `procs[i], procs[i+1], ...`. -/
def tree_loop (W page_size SZOMB PROCESS_ZOMBIE : Nat) (getuser : Nat → Option userinfo) :
    Nat → List procentry64 → List ProcessTree_T
  | _, [] => []
  | i, p :: ps =>
    tree_entry W page_size SZOMB PROCESS_ZOMBIE getuser i p ::
      tree_loop W page_size SZOMB PROCESS_ZOMBIE getuser (i + 1) ps

/-- The function `initprocesstree_sysdep`. `discover` is the return value of the first
`getprocs64` call (no buffer), `fill c` the answer of the second call for a buffer of `c`
records: the records written, whose number is the return value (`none` for a negative
return). The result is the return value and the array stored through `reference`
(`none` when nothing is stored). -/
def initprocesstree_sysdep (W page_size SZOMB PROCESS_ZOMBIE : Nat) (discover : Int)
    (fill : Nat → Option (List procentry64)) (getuser : Nat → Option userinfo) :
    Int × Option (List ProcessTree_T) :=
  if discover < 0 then (FALSE, none)
  else
    match fill discover.toNat with
    | none => (FALSE, none)
    | some procs =>
      ((procs.length : Int), some (tree_loop W page_size SZOMB PROCESS_ZOMBIE getuser 0 procs))

/-! ## `used_system_memory_sysdep` -/

/-- The predicate `!(ste_flags & ST_INDEL) && !(ste_flags & ST_DOINGDEL)`. -/
def swap_counted (ST_INDEL ST_DOINGDEL : Nat) (e : swapent) : Bool :=
  (e.ste_flags &&& ST_INDEL == 0) && (e.ste_flags &&& ST_DOINGDEL == 0)

/-- The summing loop over the listed entries, from the accumulators `(total, used)`:
`total += ste_pages; used += ste_pages - ste_free` in `unsigned long long`. -/
def swap_sum (ST_INDEL ST_DOINGDEL : Nat) : List swapent → Nat × Nat → Nat × Nat
  | [], acc => acc
  | e :: es, (total, used) =>
    if swap_counted ST_INDEL ST_DOINGDEL e then
      swap_sum ST_INDEL ST_DOINGDEL es
        ((total + e.ste_pages) % U64, (used + sub64 e.ste_pages e.ste_free) % U64)
    else
      swap_sum ST_INDEL ST_DOINGDEL es (total, used)

/-- The expression `(unsigned long)(double)(pages * page_size) / 1024.` stored into an
`unsigned long` field: the 64-bit product goes to `double`, back to `unsigned long`, and is
then divided by `1024.` as a `double`. -/
def swap_kbyte_of (W page_size pages : Nat) : Nat :=
  (F64.div (F64.ofNat ((F64.ofNat ((pages * page_size) % U64)).toNat % 2 ^ W))
    (F64.ofNat 1024)).toNat

/-- The `again:` block of `used_system_memory_sysdep`. Attempt `k` is answered by `swap k`;
`goto again` continues with attempt `k + 1` and one unit of fuel less. -/
def swap_again (W page_size ST_INDEL ST_DOINGDEL : Nat) (swap : Nat → SwapAttempt) :
    Nat → Nat → SystemInfo_T → Option (Int × SystemInfo_T)
  | 0, _, _ => none
  | fuel + 1, k, si =>
    match (swap k).count with
    | none => some (FALSE, si)
    | some 0 => some (TRUE, { si with swap_kbyte_max := 0 })
    | some (num + 1) =>
      match (swap k).list with
      | none => some (FALSE, { si with swap_kbyte_max := 0 })
      | some ents =>
        if num + 1 < ents.length then
          swap_again W page_size ST_INDEL ST_DOINGDEL swap fuel (k + 1) si
        else
          let acc := swap_sum ST_INDEL ST_DOINGDEL ents (0, 0)
          some (TRUE,
            { si with
              swap_kbyte_max := swap_kbyte_of W page_size acc.1
              total_swap_kbyte := swap_kbyte_of W page_size acc.2 })

/-- The function `used_system_memory_sysdep`: from the answer of `perfstat_memory_total`, the
answers of the swap queries, and the output record to the return value and the new record.
`none` means that `fuel` passes through `again:` were not enough to leave the loop. -/
def used_system_memory_sysdep (W page_size ST_INDEL ST_DOINGDEL : Nat) (memq : MemQuery)
    (swap : Nat → SwapAttempt) (fuel : Nat) (si : SystemInfo_T) : Option (Int × SystemInfo_T) :=
  if memq.rc < 1 then some (FALSE, si)
  else
    swap_again W page_size ST_INDEL ST_DOINGDEL swap fuel 0
      { si with
        total_mem_kbyte :=
          ((sub64 (sub64 memq.mem.real_total memq.mem.real_free) memq.mem.numperm
              * (page_size / 1024)) % U64) % 2 ^ W }

/-! ## `getloadavg_sysdep` -/

/-- One answer of `perfstat_cpu_total` as `getloadavg_sysdep` reads it: the return code and
the `u_longlong_t` array `loadavg` of the buffer. -/
structure LoadQuery where
  rc : Int
  loadavg : Nat → Nat

/-- The expression `(double)(cpu.loadavg[i] / (1<<SBITS))`: the quotient is taken in
`unsigned long long` and then converted. `SBITS` is a macro of a system header that is not
part of the sources and is a parameter. -/
def loadavg_of (SBITS : Nat) (q : LoadQuery) (i : Nat) : F64 :=
  F64.ofNat (q.loadavg i / 2 ^ SBITS)

/-- The function `getloadavg_sysdep`: from the answer of the kernel, the caller's array
`loadv` (slots hold finite non-negative doubles) and `nelem` to the return value and the new
content of the array. The `switch` falls through from `case 3` to `case 1`. -/
def getloadavg_sysdep (SBITS : Nat) (q : LoadQuery) (loadv : Nat → F64) (nelem : Int) :
    Int × (Nat → F64) :=
  if q.rc < 1 then (-1, loadv)
  else
    let loadv3 := if nelem = 3 then Function.update loadv 2 (loadavg_of SBITS q 2) else loadv
    let loadv2 :=
      if nelem = 3 ∨ nelem = 2 then Function.update loadv3 1 (loadavg_of SBITS q 1) else loadv3
    let loadv1 :=
      if nelem = 3 ∨ nelem = 2 ∨ nelem = 1 then Function.update loadv2 0 (loadavg_of SBITS q 0)
      else loadv2
    (TRUE, loadv1)

/-! ## Inputs and reference quantities used in the statements -/

/-- An output record with every field zero, as the zero-initialised global `systeminfo`. -/
def SystemInfo_T.zero : SystemInfo_T :=
  { swap_kbyte_max := 0, total_mem_kbyte := 0, total_swap_kbyte := 0,
    total_cpu_user_percent := 0, total_cpu_syst_percent := 0, total_cpu_wait_percent := 0 }

/-- The first reading of the example of the spec. -/
def exampleReading1 : CpuQuery :=
  { rc := 1, cpu := { user := 1000, sys := 500, wait := 100, idle := 8400, ncpus := 2 } }

/-- The second reading of the example of the spec: only `user` has moved. -/
def exampleReading2 : CpuQuery :=
  { rc := 1, cpu := { user := 1100, sys := 500, wait := 100, idle := 8400, ncpus := 2 } }

/-- A counter source on which every attempt races: the count call reports 1 device and the
list call then reports 2 entries. -/
def racingSwap : Nat → SwapAttempt :=
  fun _ => { count := some 1, list := some [⟨0, 10, 5⟩, ⟨0, 10, 5⟩] }

/-- Rounding of the quotient `N / D` to the nearest integer, ties to even: the significand
that `roundNE` computes from the scaled numerator and denominator. -/
def roundQuot (N D : Nat) : Nat :=
  if D < 2 * (N % D) ∨ (2 * (N % D) = D ∧ N / D % 2 = 1) then N / D + 1 else N / D

/-- Order of two doubles by value: `x.num / x.den <= y.num / y.den`. -/
def F64.le (x y : F64) : Prop := x.num * y.den ≤ y.num * x.den

/-- An attempt races: the count call reports `num >= 1` devices and the list call reports
more than `num` entries, which sends the code back to `again:`. -/
def swap_races (a : SwapAttempt) : Bool :=
  match a.count, a.list with
  | some (num + 1), some ents => decide (num + 1 < ents.length)
  | _, _ => false

/-- Pages of the entries that carry neither deletion flag. -/
def counted_pages (ST_INDEL ST_DOINGDEL : Nat) (ents : List swapent) : Nat :=
  ((ents.filter (fun e => decide (e.ste_flags &&& ST_INDEL = 0 ∧
      e.ste_flags &&& ST_DOINGDEL = 0))).map (fun e => e.ste_pages)).sum

/-- Used pages (`ste_pages - ste_free`) of the entries that carry neither deletion flag. -/
def counted_used (ST_INDEL ST_DOINGDEL : Nat) (ents : List swapent) : Nat :=
  ((ents.filter (fun e => decide (e.ste_flags &&& ST_INDEL = 0 ∧
      e.ste_flags &&& ST_DOINGDEL = 0))).map (fun e => e.ste_pages - e.ste_free)).sum

/-! ## Properties of the binary64 operations -/

theorem ilog2_spec (fuel n : Nat) (hn : n ≠ 0) (hf : n ≤ fuel) :
    2 ^ ilog2 fuel n ≤ n ∧ n < 2 ^ (ilog2 fuel n + 1) := by
  induction fuel generalizing n with
  | zero => omega
  | succ fuel ih =>
    unfold ilog2
    split_ifs with h
    · constructor
      · simp only [pow_zero]; omega
      · simp only [zero_add, pow_one]; omega
    · have h2 : n / 2 ≠ 0 := by omega
      have h3 : n / 2 ≤ fuel := by omega
      obtain ⟨a, b⟩ := ih (n / 2) h2 h3
      generalize ilog2 fuel (n / 2) = k at a b
      constructor
      · rw [pow_succ]; omega
      · rw [pow_succ]; omega

/-- After scaling, the quotient has at least 53 bits. -/
theorem scale_lower (n d : Nat) (hn : n ≠ 0) (hd : d ≠ 0) :
    d * 2 ^ scaleDown n d * 2 ^ 52 ≤ n * 2 ^ scaleUp n d := by
  obtain ⟨ha, _⟩ := ilog2_spec n n hn le_rfl
  obtain ⟨_, hb⟩ := ilog2_spec d d hd le_rfl
  unfold scaleUp
  simp only
  split_ifs with h
  · unfold scaleDown at *
    generalize ilog2 n n = a at *
    generalize ilog2 d d = b at *
    have e : b + 1 + (a - (b + 52)) + 52 = a + (b + 52 - a + 1) := by omega
    calc d * 2 ^ (a - (b + 52)) * 2 ^ 52
        ≤ 2 ^ (b + 1) * 2 ^ (a - (b + 52)) * 2 ^ 52 :=
          Nat.mul_le_mul_right _ (Nat.mul_le_mul_right _ hb.le)
      _ = 2 ^ a * 2 ^ (b + 52 - a + 1) := by rw [← pow_add, ← pow_add, ← pow_add, e]
      _ ≤ n * 2 ^ (b + 52 - a + 1) := Nat.mul_le_mul_right _ ha
  · exact not_lt.mp h

/-- When the scaled denominator divides the scaled numerator nothing is rounded away. -/
theorem roundNE_of_dvd (n d : Nat) (hn : n ≠ 0) (hd : d ≠ 0)
    (h : d * 2 ^ scaleDown n d ∣ n * 2 ^ scaleUp n d) :
    roundNE n d =
      ⟨n * 2 ^ scaleUp n d / (d * 2 ^ scaleDown n d) * 2 ^ scaleDown n d, 2 ^ scaleUp n d⟩ := by
  have hD : 0 < d * 2 ^ scaleDown n d := Nat.mul_pos (Nat.pos_of_ne_zero hd) (by positivity)
  have hr : n * 2 ^ scaleUp n d % (d * 2 ^ scaleDown n d) = 0 := Nat.mod_eq_zero_of_dvd h
  unfold roundNE
  simp only [hn, if_false, hr, Nat.mul_zero]
  have c : ¬ (d * 2 ^ scaleDown n d < 0 ∨
      (0 = d * 2 ^ scaleDown n d ∧
        n * 2 ^ scaleUp n d / (d * 2 ^ scaleDown n d) % 2 = 1)) := by
    rintro (c | ⟨c, _⟩) <;> omega
  rw [if_neg c]

/-- Truncating an exactly represented quotient gives the integer quotient. -/
theorem roundNE_toNat_of_dvd (n d : Nat) (hn : n ≠ 0) (hd : d ≠ 0)
    (h : d * 2 ^ scaleDown n d ∣ n * 2 ^ scaleUp n d) :
    (roundNE n d).toNat = n / d := by
  rw [roundNE_of_dvd n d hn hd h]
  obtain ⟨c, hc⟩ := h
  have hD : 0 < d * 2 ^ scaleDown n d := Nat.mul_pos (Nat.pos_of_ne_zero hd) (by positivity)
  have hU : 0 < 2 ^ scaleUp n d := by positivity
  simp only [F64.toNat]
  rw [hc, Nat.mul_div_cancel_left _ hD]
  have e1 : n / d = n * 2 ^ scaleUp n d / (d * 2 ^ scaleUp n d) :=
    (Nat.mul_div_mul_right _ _ hU).symm
  have e2 : d * 2 ^ scaleDown n d * c = (c * 2 ^ scaleDown n d) * d := by ring
  rw [e1, hc, e2, Nat.mul_comm d (2 ^ scaleUp n d),
    Nat.mul_div_mul_right _ _ (Nat.pos_of_ne_zero hd)]

theorem ilog2_one : ilog2 1 1 = 0 := by decide

/-- An integer below `2 ^ 53` converts to `double` without rounding. -/
theorem ofNat_exact (y : Nat) (hy : y < 2 ^ 53) :
    ∃ k, F64.ofNat y = ⟨y * 2 ^ k, 2 ^ k⟩ := by
  by_cases h0 : y = 0
  · exact ⟨0, by subst h0; rfl⟩
  · have hsd : scaleDown y 1 = 0 := by
      obtain ⟨ha, _⟩ := ilog2_spec y y h0 le_rfl
      unfold scaleDown
      have : ilog2 y y < 53 := (Nat.pow_lt_pow_iff_right (by norm_num)).mp (lt_of_le_of_lt ha hy)
      omega
    refine ⟨scaleUp y 1, ?_⟩
    unfold F64.ofNat
    rw [roundNE_of_dvd y 1 h0 one_ne_zero (by rw [hsd]; simp), hsd]
    simp

theorem ofNat_toNat (y : Nat) (hy : y < 2 ^ 53) : (F64.ofNat y).toNat = y := by
  obtain ⟨k, hk⟩ := ofNat_exact y hy
  rw [hk]
  simp only [F64.toNat]
  exact Nat.mul_div_cancel _ (by positivity)

/-- Dividing an integer below `2 ^ 53` by 1024 in `double` and truncating is the integer
quotient. -/
theorem roundNE_div_1024 (y A : Nat) (hy : y < 2 ^ 53) (hA : 0 < A) :
    (roundNE (y * A) (1024 * A)).toNat = y / 1024 := by
  by_cases h0 : y = 0
  · subst h0
    simp [roundNE, F64.toNat]
  · have hn : y * A ≠ 0 := Nat.mul_ne_zero h0 hA.ne'
    have hd : 1024 * A ≠ 0 := Nat.mul_ne_zero (by norm_num) hA.ne'
    have hdvd : 1024 * A * 2 ^ scaleDown (y * A) (1024 * A) ∣
        y * A * 2 ^ scaleUp (y * A) (1024 * A) := by
      have hlow := scale_lower (y * A) (1024 * A) hn hd
      generalize scaleDown (y * A) (1024 * A) = sd at *
      generalize scaleUp (y * A) (1024 * A) = su at *
      have h1 : 2 ^ (62 + sd) ≤ y * 2 ^ su := by
        have e : 1024 * A * 2 ^ sd * 2 ^ 52 = A * 2 ^ (62 + sd) := by
          rw [show 62 + sd = 10 + sd + 52 by omega, pow_add, pow_add]; norm_num; ring
        have e' : y * A * 2 ^ su = A * (y * 2 ^ su) := by ring
        rw [e, e'] at hlow
        exact Nat.le_of_mul_le_mul_left hlow hA
      have h2 : y * 2 ^ su < 2 ^ (53 + su) := by
        rw [pow_add]
        exact Nat.mul_lt_mul_of_pos_right hy (by positivity)
      have h3 : 62 + sd < 53 + su :=
        (Nat.pow_lt_pow_iff_right (by norm_num)).mp (lt_of_le_of_lt h1 h2)
      refine ⟨y * 2 ^ (su - sd - 10), ?_⟩
      have e : su = (su - sd - 10) + sd + 10 := by omega
      conv_lhs => rw [e]
      rw [pow_add, pow_add]
      norm_num
      ring
    rw [roundNE_toNat_of_dvd _ _ hn hd hdvd]
    exact Nat.mul_div_mul_right _ _ hA

/-- The conversion chain of the swap totals is exact for byte counts below `2 ^ 53` that fit
an `unsigned long`. -/
theorem swap_kbyte_of_exact (W page_size pages : Nat) (h53 : pages * page_size < 2 ^ 53)
    (hW : pages * page_size < 2 ^ W) :
    swap_kbyte_of W page_size pages = pages * page_size / 1024 := by
  have h64 : pages * page_size < U64 := lt_trans h53 (by unfold U64; norm_num)
  unfold swap_kbyte_of
  rw [Nat.mod_eq_of_lt h64, ofNat_toNat _ h53, Nat.mod_eq_of_lt hW]
  obtain ⟨k, hk⟩ := ofNat_exact _ h53
  have h1024 : F64.ofNat 1024 = ⟨2 ^ 52, 2 ^ 42⟩ := by decide
  rw [hk, h1024]
  simp only [F64.div]
  have e1 : pages * page_size * 2 ^ k * 2 ^ 42 = pages * page_size * (2 ^ k * 2 ^ 42) := by ring
  have e2 : 2 ^ k * 2 ^ 52 = 1024 * (2 ^ k * 2 ^ 42) := by norm_num; ring
  rw [e1, e2]
  exact roundNE_div_1024 _ _ h53 (by positivity)

/-! ### Rounding is monotone -/

/-- After scaling, the quotient has at most 53 bits. -/
theorem scale_upper (n d : Nat) (hn : n ≠ 0) (hd : d ≠ 0) :
    n * 2 ^ scaleUp n d < d * 2 ^ scaleDown n d * 2 ^ 53 := by
  obtain ⟨_, ha⟩ := ilog2_spec n n hn le_rfl
  obtain ⟨hb, _⟩ := ilog2_spec d d hd le_rfl
  unfold scaleUp
  simp only
  split_ifs with h
  · have e1 : n * 2 ^ (ilog2 d d + 52 - ilog2 n n + 1) =
        2 * (n * 2 ^ (ilog2 d d + 52 - ilog2 n n)) := by ring
    have e2 : d * 2 ^ scaleDown n d * 2 ^ 53 = 2 * (d * 2 ^ scaleDown n d * 2 ^ 52) := by
      norm_num
      ring
    rw [e1, e2]
    omega
  · unfold scaleDown at *
    generalize ilog2 n n = a at *
    generalize ilog2 d d = b at *
    have e : a + 1 + (b + 52 - a) = b + (a - (b + 52)) + 53 := by omega
    calc n * 2 ^ (b + 52 - a)
        < 2 ^ (a + 1) * 2 ^ (b + 52 - a) := Nat.mul_lt_mul_of_pos_right ha (by positivity)
      _ = 2 ^ b * 2 ^ (a - (b + 52)) * 2 ^ 53 := by rw [← pow_add, ← pow_add, ← pow_add, e]
      _ ≤ d * 2 ^ (a - (b + 52)) * 2 ^ 53 :=
          Nat.mul_le_mul_right _ (Nat.mul_le_mul_right _ hb)

theorem roundNE_eq (n d : Nat) (hn : n ≠ 0) :
    roundNE n d =
      ⟨roundQuot (n * 2 ^ scaleUp n d) (d * 2 ^ scaleDown n d) * 2 ^ scaleDown n d,
        2 ^ scaleUp n d⟩ := by
  simp only [roundNE, hn, if_false, roundQuot]

theorem roundQuot_ge (N D : Nat) : N / D ≤ roundQuot N D := by
  unfold roundQuot
  split_ifs <;> omega

theorem roundQuot_le (N D : Nat) : roundQuot N D ≤ N / D + 1 := by
  unfold roundQuot
  split_ifs <;> omega

theorem div_le_div_cross (N1 D1 N2 D2 : Nat) (h1 : 0 < D1) (h2 : 0 < D2)
    (h : N1 * D2 ≤ N2 * D1) : N1 / D1 ≤ N2 / D2 := by
  rw [Nat.le_div_iff_mul_le h2]
  have hq : N1 / D1 * D1 ≤ N1 := Nat.div_mul_le_self _ _
  apply Nat.le_of_mul_le_mul_right _ h1
  calc N1 / D1 * D2 * D1 = N1 / D1 * D1 * D2 := by ring
    _ ≤ N1 * D2 := Nat.mul_le_mul_right _ hq
    _ ≤ N2 * D1 := h

theorem roundQuot_mono (N1 D1 N2 D2 : Nat) (h1 : 0 < D1) (h2 : 0 < D2)
    (h : N1 * D2 ≤ N2 * D1) : roundQuot N1 D1 ≤ roundQuot N2 D2 := by
  have hq := div_le_div_cross N1 D1 N2 D2 h1 h2 h
  rcases Nat.lt_or_eq_of_le hq with hlt | heq
  · calc roundQuot N1 D1 ≤ N1 / D1 + 1 := roundQuot_le _ _
      _ ≤ N2 / D2 := hlt
      _ ≤ roundQuot N2 D2 := roundQuot_ge _ _
  · have d1 : D1 * (N1 / D1) + N1 % D1 = N1 := Nat.div_add_mod _ _
    have d2 : D2 * (N2 / D2) + N2 % D2 = N2 := Nat.div_add_mod _ _
    have hr : N1 % D1 * D2 ≤ N2 % D2 * D1 := by
      rw [← d1, ← d2, ← heq] at h
      have e1 : (D1 * (N1 / D1) + N1 % D1) * D2 = D1 * D2 * (N1 / D1) + N1 % D1 * D2 := by ring
      have e2 : (D2 * (N1 / D1) + N2 % D2) * D1 = D1 * D2 * (N1 / D1) + N2 % D2 * D1 := by ring
      rw [e1, e2] at h
      omega
    unfold roundQuot
    by_cases c1 : D1 < 2 * (N1 % D1) ∨ (2 * (N1 % D1) = D1 ∧ N1 / D1 % 2 = 1)
    · have hle : D2 ≤ 2 * (N2 % D2) := by
        have hD : D1 ≤ 2 * (N1 % D1) := by rcases c1 with c | ⟨c, _⟩ <;> omega
        have a1 : D1 * D2 ≤ 2 * (N1 % D1) * D2 := Nat.mul_le_mul_right _ hD
        have a2 : 2 * (N1 % D1) * D2 = 2 * (N1 % D1 * D2) := by ring
        have a3 : D1 * D2 ≤ 2 * (N2 % D2) * D1 := by
          rw [a2] at a1
          have : 2 * (N2 % D2) * D1 = 2 * (N2 % D2 * D1) := by ring
          rw [this]
          omega
        rw [Nat.mul_comm D1 D2] at a3
        exact Nat.le_of_mul_le_mul_right a3 h1
      have c2 : D2 < 2 * (N2 % D2) ∨ (2 * (N2 % D2) = D2 ∧ N2 / D2 % 2 = 1) := by
        rcases c1 with c | ⟨c, hodd⟩
        · left
          by_contra hcon
          have heq2 : 2 * (N2 % D2) = D2 := by omega
          have b1 : D1 * D2 < 2 * (N1 % D1) * D2 := Nat.mul_lt_mul_of_pos_right c h2
          have b2 : 2 * (N1 % D1) * D2 = 2 * (N1 % D1 * D2) := by ring
          have b3 : D1 * D2 = 2 * (N2 % D2 * D1) := by
            rw [← Nat.mul_assoc, heq2, Nat.mul_comm]
          rw [b2, b3] at b1
          omega
        · rcases Nat.lt_or_eq_of_le hle with hl | he
          · exact Or.inl hl
          · exact Or.inr ⟨he.symm, by rw [← heq]; exact hodd⟩
      rw [if_pos c1, if_pos c2, heq]
    · rw [if_neg c1, heq]
      split_ifs <;> omega

theorem roundNE_den_pos (n d : Nat) : 0 < (roundNE n d).den := by
  unfold roundNE
  split_ifs
  · exact Nat.one_pos
  · simp only
    positivity

theorem roundNE_num_pos (n d : Nat) (hn : n ≠ 0) (hd : d ≠ 0) : 0 < (roundNE n d).num := by
  rw [roundNE_eq n d hn]
  have hD : 0 < d * 2 ^ scaleDown n d := Nat.mul_pos (Nat.pos_of_ne_zero hd) (by positivity)
  have hq : 2 ^ 52 ≤ n * 2 ^ scaleUp n d / (d * 2 ^ scaleDown n d) := by
    rw [Nat.le_div_iff_mul_le hD, Nat.mul_comm]
    exact scale_lower n d hn hd
  have := roundQuot_ge (n * 2 ^ scaleUp n d) (d * 2 ^ scaleDown n d)
  exact Nat.mul_pos (lt_of_lt_of_le (by positivity) (le_trans hq this)) (by positivity)

/-- Rounding is monotone: a smaller rational rounds to a double that is not larger. -/
theorem roundNE_mono (n1 d1 n2 d2 : Nat) (hd1 : d1 ≠ 0) (hd2 : d2 ≠ 0)
    (h : n1 * d2 ≤ n2 * d1) : F64.le (roundNE n1 d1) (roundNE n2 d2) := by
  by_cases hn1 : n1 = 0
  · subst hn1
    simp [roundNE, F64.le]
  have hn2 : n2 ≠ 0 := by
    rintro rfl
    have : n1 * d2 = 0 := by omega
    rcases Nat.mul_eq_zero.mp this with h0 | h0 <;> contradiction
  rw [roundNE_eq n1 d1 hn1, roundNE_eq n2 d2 hn2]
  have L1 := scale_lower n1 d1 hn1 hd1
  have U1 := scale_upper n1 d1 hn1 hd1
  have L2 := scale_lower n2 d2 hn2 hd2
  have U2 := scale_upper n2 d2 hn2 hd2
  generalize scaleUp n1 d1 = su1 at *
  generalize scaleDown n1 d1 = sd1 at *
  generalize scaleUp n2 d2 = su2 at *
  generalize scaleDown n2 d2 = sd2 at *
  have hD1 : 0 < d1 * 2 ^ sd1 := Nat.mul_pos (Nat.pos_of_ne_zero hd1) (by positivity)
  have hD2 : 0 < d2 * 2 ^ sd2 := Nat.mul_pos (Nat.pos_of_ne_zero hd2) (by positivity)
  have hQ1 : roundQuot (n1 * 2 ^ su1) (d1 * 2 ^ sd1) ≤ 2 ^ 53 := by
    have hq : n1 * 2 ^ su1 / (d1 * 2 ^ sd1) < 2 ^ 53 := by
      rw [Nat.div_lt_iff_lt_mul hD1, Nat.mul_comm (2 ^ 53)]
      exact U1
    have := roundQuot_le (n1 * 2 ^ su1) (d1 * 2 ^ sd1)
    omega
  have hQ2 : 2 ^ 52 ≤ roundQuot (n2 * 2 ^ su2) (d2 * 2 ^ sd2) := by
    have hq : 2 ^ 52 ≤ n2 * 2 ^ su2 / (d2 * 2 ^ sd2) := by
      rw [Nat.le_div_iff_mul_le hD2, Nat.mul_comm]
      exact L2
    exact le_trans hq (roundQuot_ge _ _)
  simp only [F64.le]
  rcases lt_trichotomy (sd1 + su2) (sd2 + su1) with hlt | heq | hgt
  · generalize roundQuot (n1 * 2 ^ su1) (d1 * 2 ^ sd1) = Q1 at *
    generalize roundQuot (n2 * 2 ^ su2) (d2 * 2 ^ sd2) = Q2 at *
    have hp : 2 ^ (sd1 + su2 + 1) ≤ 2 ^ (sd2 + su1) := Nat.pow_le_pow_right (by norm_num) hlt
    calc Q1 * 2 ^ sd1 * 2 ^ su2 = Q1 * 2 ^ (sd1 + su2) := by rw [pow_add]; ring
      _ ≤ 2 ^ 53 * 2 ^ (sd1 + su2) := Nat.mul_le_mul_right _ hQ1
      _ = 2 ^ 52 * 2 ^ (sd1 + su2 + 1) := by rw [pow_succ]; norm_num; ring
      _ ≤ 2 ^ 52 * 2 ^ (sd2 + su1) := Nat.mul_le_mul_left _ hp
      _ ≤ Q2 * 2 ^ (sd2 + su1) := Nat.mul_le_mul_right _ hQ2
      _ = Q2 * 2 ^ sd2 * 2 ^ su1 := by rw [pow_add]; ring
  · have hcross : n1 * 2 ^ su1 * (d2 * 2 ^ sd2) ≤ n2 * 2 ^ su2 * (d1 * 2 ^ sd1) := by
      calc n1 * 2 ^ su1 * (d2 * 2 ^ sd2) = n1 * d2 * 2 ^ (sd2 + su1) := by rw [pow_add]; ring
        _ ≤ n2 * d1 * 2 ^ (sd2 + su1) := Nat.mul_le_mul_right _ h
        _ = n2 * d1 * 2 ^ (sd1 + su2) := by rw [heq]
        _ = n2 * 2 ^ su2 * (d1 * 2 ^ sd1) := by rw [pow_add]; ring
    have hmono := roundQuot_mono _ _ _ _ hD1 hD2 hcross
    generalize roundQuot (n1 * 2 ^ su1) (d1 * 2 ^ sd1) = Q1 at *
    generalize roundQuot (n2 * 2 ^ su2) (d2 * 2 ^ sd2) = Q2 at *
    calc Q1 * 2 ^ sd1 * 2 ^ su2 = Q1 * 2 ^ (sd1 + su2) := by rw [pow_add]; ring
      _ ≤ Q2 * 2 ^ (sd1 + su2) := Nat.mul_le_mul_right _ hmono
      _ = Q2 * 2 ^ (sd2 + su1) := by rw [heq]
      _ = Q2 * 2 ^ sd2 * 2 ^ su1 := by rw [pow_add]; ring
  · exfalso
    have hp : 2 ^ (sd2 + su1 + 1) ≤ 2 ^ (sd1 + su2) := Nat.pow_le_pow_right (by norm_num) hgt
    have s1 : d1 * d2 * 2 ^ 52 * 2 ^ (sd1 + su2) ≤ n1 * d2 * 2 ^ (su1 + su2) := by
      calc d1 * d2 * 2 ^ 52 * 2 ^ (sd1 + su2)
          = d1 * 2 ^ sd1 * 2 ^ 52 * (d2 * 2 ^ su2) := by rw [pow_add]; ring
        _ ≤ n1 * 2 ^ su1 * (d2 * 2 ^ su2) := Nat.mul_le_mul_right _ L1
        _ = n1 * d2 * 2 ^ (su1 + su2) := by rw [pow_add]; ring
    have s2 : n1 * d2 * 2 ^ (su1 + su2) ≤ n2 * d1 * 2 ^ (su1 + su2) :=
      Nat.mul_le_mul_right _ h
    have s3 : n2 * d1 * 2 ^ (su1 + su2) < d1 * d2 * 2 ^ 52 * 2 ^ (sd2 + su1 + 1) := by
      calc n2 * d1 * 2 ^ (su1 + su2) = n2 * 2 ^ su2 * (d1 * 2 ^ su1) := by rw [pow_add]; ring
        _ < d2 * 2 ^ sd2 * 2 ^ 53 * (d1 * 2 ^ su1) :=
            Nat.mul_lt_mul_of_pos_right U2
              (Nat.mul_pos (Nat.pos_of_ne_zero hd1) (by positivity))
        _ = d1 * d2 * 2 ^ 52 * 2 ^ (sd2 + su1 + 1) := by
            rw [pow_succ, pow_add]; norm_num; ring
    have s4 : d1 * d2 * 2 ^ 52 * 2 ^ (sd2 + su1 + 1) ≤ d1 * d2 * 2 ^ 52 * 2 ^ (sd1 + su2) :=
      Nat.mul_le_mul_left _ hp
    omega

theorem toNat_mono (x y : F64) (hx : 0 < x.den) (hy : 0 < y.den) (h : F64.le x y) :
    x.toNat ≤ y.toNat := by
  unfold F64.toNat
  exact div_le_div_cross _ _ _ _ hx hy h

theorem ofNat_mono (a b : Nat) (h : a ≤ b) : F64.le (F64.ofNat a) (F64.ofNat b) := by
  unfold F64.ofNat
  exact roundNE_mono a 1 b 1 one_ne_zero one_ne_zero (by omega)

/-- A quotient of at most 1 is reported as at most 1000 tenths of a percent. -/
theorem cpu_percent_of_le (a b : Nat) (hab : a ≤ b) (hb : 0 < b) :
    cpu_percent_of a b ≤ 1000 := by
  unfold cpu_percent_of
  have hfa : (F64.ofNat a).num * (F64.ofNat b).den ≤ (F64.ofNat b).num * (F64.ofNat a).den :=
    ofNat_mono a b hab
  have hbnum : 0 < (F64.ofNat b).num := roundNE_num_pos b 1 hb.ne' one_ne_zero
  have haden : 0 < (F64.ofNat a).den := roundNE_den_pos a 1
  have h11 : roundNE 1 1 = ⟨2 ^ 52, 2 ^ 52⟩ := by decide
  have hk : F64.ofNat 1000 = ⟨1000 * 2 ^ 43, 2 ^ 43⟩ := by decide
  have hk' : roundNE 1000 1 = ⟨1000 * 2 ^ 43, 2 ^ 43⟩ := hk
  have hq : F64.le (F64.div (F64.ofNat a) (F64.ofNat b)) (roundNE 1 1) := by
    unfold F64.div
    apply roundNE_mono _ _ 1 1 (Nat.mul_ne_zero haden.ne' hbnum.ne') one_ne_zero
    rw [Nat.mul_one, Nat.one_mul, Nat.mul_comm (F64.ofNat a).den]
    exact hfa
  have hqden : 0 < (F64.div (F64.ofNat a) (F64.ofNat b)).den := roundNE_den_pos _ _
  generalize F64.div (F64.ofNat a) (F64.ofNat b) = q at hq hqden ⊢
  rw [h11] at hq
  simp only [F64.le] at hq
  have hq' : q.num ≤ q.den := by
    rw [Nat.mul_comm] at hq
    exact Nat.le_of_mul_le_mul_left hq (by positivity)
  have hm : F64.le (F64.mul (F64.ofNat 1000) q) (roundNE 1000 1) := by
    unfold F64.mul
    rw [hk]
    apply roundNE_mono _ _ 1000 1 (Nat.mul_ne_zero (by positivity) hqden.ne') one_ne_zero
    simp only
    calc 1000 * 2 ^ 43 * q.num * 1 = 1000 * 2 ^ 43 * q.num := Nat.mul_one _
      _ ≤ 1000 * 2 ^ 43 * q.den := Nat.mul_le_mul_left _ hq'
      _ = 1000 * (2 ^ 43 * q.den) := by ring
  have hrden : 0 < (F64.mul (F64.ofNat 1000) q).den := roundNE_den_pos _ _
  generalize F64.mul (F64.ofNat 1000) q = r at hm hrden ⊢
  rw [hk'] at hm
  simp only [F64.le] at hm
  have hr : r.num ≤ 1000 * r.den := by
    have e : 1000 * 2 ^ 43 * r.den = 2 ^ 43 * (1000 * r.den) := by ring
    rw [e, Nat.mul_comm] at hm
    exact Nat.le_of_mul_le_mul_left hm (by positivity)
  have : r.toNat ≤ 1000 := by
    unfold F64.toNat
    exact Nat.div_le_of_le_mul (by rw [Nat.mul_comm]; exact hr)
  exact_mod_cast this

/-! ## Properties of `used_system_cpu_sysdep` -/

theorem sub64_self (a : Nat) : sub64 a a = 0 := by
  unfold sub64
  have h : a % U64 < U64 := Nat.mod_lt _ (by unfold U64; positivity)
  have e : a % U64 + (U64 - a % U64) = U64 := by omega
  rw [e, Nat.mod_self]

theorem sub64_of_le (a b : Nat) (ha : a < U64) (hb : b ≤ a) : sub64 a b = a - b := by
  unfold sub64 U64 at *
  omega

/-- C1, as stated, fails: on a first call the percentages are not written, so a record that
held `total_cpu_user_percent = 7` before the call still holds 7 after it. -/
theorem first_call_keeps_prior_percent :
    (used_system_cpu_sysdep CpuState.start
        { SystemInfo_T.zero with total_cpu_user_percent := 7 }
        { rc := 1, cpu := { user := 1000, sys := 500, wait := 100, idle := 8400, ncpus := 2 } }).map
      (fun r => (r.1, r.2.1.cpu_initialized, r.2.2.total_cpu_user_percent))
      = some (TRUE, true, 7) := by
  decide

/-- C1, amended: a successful first call (flag false, core count at least 1) returns `TRUE`,
leaves the whole output record as it was (so the three percentages are zero exactly when they
were zero before the call) and leaves the initialized flag set. -/
theorem first_call_leaves_record (st : CpuState) (si : SystemInfo_T) (q : CpuQuery)
    (hinit : st.cpu_initialized = false) (hrc : 0 ≤ q.rc) (hn : 1 ≤ q.cpu.ncpus) :
    ∃ st', used_system_cpu_sysdep st si q = some (TRUE, st', si) ∧ st'.cpu_initialized = true := by
  have h1 : ¬ q.rc < 0 := not_lt.mpr hrc
  have h2 : ¬ q.cpu.ncpus = 0 := by omega
  simp [used_system_cpu_sysdep, h1, h2, hinit]

theorem first_call_leaves_record_witness :
    ∃ st', used_system_cpu_sysdep CpuState.start SystemInfo_T.zero
        { rc := 1, cpu := { user := 1000, sys := 500, wait := 100, idle := 8400, ncpus := 2 } }
      = some (TRUE, st', SystemInfo_T.zero) ∧ st'.cpu_initialized = true :=
  first_call_leaves_record CpuState.start SystemInfo_T.zero
    { rc := 1, cpu := { user := 1000, sys := 500, wait := 100, idle := 8400, ncpus := 2 } }
    rfl (by decide) (by decide)

/-- C2, as stated, fails: after a counter reset (stored total 4096, new total 0, so the new
total is strictly smaller) the unsigned difference `cpu_total` wraps to `2 ^ 64 - 4096`, the
positive branch is taken and the user percentage reported is 1000, not 0. -/
theorem counter_reset_reports_nonzero :
    cpu_total_new { user := 0, sys := 0, wait := 0, idle := 0, ncpus := 1 } < 4096 ∧
    (used_system_cpu_sysdep
        { cpu_initialized := true, cpu_total_old := 4096, cpu_user_old := 4096,
          cpu_syst_old := 0, cpu_wait_old := 0 }
        SystemInfo_T.zero
        { rc := 1, cpu := { user := 0, sys := 0, wait := 0, idle := 0, ncpus := 1 } }).map
      (fun r => r.2.2.total_cpu_user_percent) = some 1000 := by
  decide

/-- C2, amended: for an initialized previous sample and a successful reading with core count
at least 1 whose `cpu_total` (the unsigned 64-bit difference of the new and the stored
normalized total) is 0, all three percentages are set to exactly zero. -/
theorem zero_delta_reports_zero (st : CpuState) (si : SystemInfo_T) (q : CpuQuery)
    (hinit : st.cpu_initialized = true) (hrc : 0 ≤ q.rc) (hn : 1 ≤ q.cpu.ncpus)
    (hd : cpu_total_delta st q.cpu = 0) :
    ∃ st', used_system_cpu_sysdep st si q =
      some (TRUE, st',
        { si with total_cpu_user_percent := 0, total_cpu_syst_percent := 0,
                  total_cpu_wait_percent := 0 }) := by
  have h1 : ¬ q.rc < 0 := not_lt.mpr hrc
  have h2 : ¬ q.cpu.ncpus = 0 := by omega
  simp [used_system_cpu_sysdep, h1, h2, hinit, hd]

theorem zero_delta_reports_zero_witness :
    ∃ st', used_system_cpu_sysdep
        { cpu_initialized := true, cpu_total_old := 5000, cpu_user_old := 500,
          cpu_syst_old := 250, cpu_wait_old := 50 }
        { SystemInfo_T.zero with total_cpu_user_percent := 7 }
        { rc := 1, cpu := { user := 1000, sys := 500, wait := 100, idle := 8400, ncpus := 2 } } =
      some (TRUE, st',
        { ({ SystemInfo_T.zero with total_cpu_user_percent := 7 } : SystemInfo_T) with
          total_cpu_user_percent := 0, total_cpu_syst_percent := 0,
          total_cpu_wait_percent := 0 }) :=
  zero_delta_reports_zero _ _ _ rfl (by decide) (by decide) (by decide)

/-- C3, as stated, fails: on the second call of the example the total delta is not 100 and
the user percentage is not 500. -/
theorem example_delta_is_not_100 :
    ¬ ((cpu_calls CpuState.start SystemInfo_T.zero [exampleReading1]).map
          (fun r => cpu_total_delta r.1 exampleReading2.cpu) = some 100 ∧
       (cpu_calls CpuState.start SystemInfo_T.zero [exampleReading1, exampleReading2]).map
          (fun r => r.2.total_cpu_user_percent) = some 500) := by
  decide

/-- C3, amended: from the start state the two calls of the example give, on the second call,
a total delta of 50 (normalized totals 5000 and 5050) and percentages user = 1000 (100.0%),
system = 0 and wait = 0, whatever the output record held before. -/
theorem example_delta_is_50 (si : SystemInfo_T) :
    (cpu_calls CpuState.start si [exampleReading1]).map
        (fun r => cpu_total_delta r.1 exampleReading2.cpu) = some 50 ∧
    (cpu_calls CpuState.start si [exampleReading1, exampleReading2]).map
        (fun r => (r.2.total_cpu_user_percent, r.2.total_cpu_syst_percent,
                   r.2.total_cpu_wait_percent)) = some (1000, 0, 0) := by
  have t1 : cpu_total_new exampleReading1.cpu = 5000 := by decide
  have t2 : sub64 (cpu_total_new exampleReading2.cpu) 5000 = 50 := by decide
  constructor
  · simp [cpu_calls, used_system_cpu_sysdep, CpuState.start, cpu_total_delta, t1, t2,
      show ¬ exampleReading1.rc < 0 by decide, show exampleReading1.cpu.ncpus ≠ 0 by decide]
  · simp [cpu_calls, used_system_cpu_sysdep, CpuState.start, cpu_total_delta, t1, t2,
      show ¬ exampleReading1.rc < 0 by decide, show exampleReading1.cpu.ncpus ≠ 0 by decide,
      show ¬ exampleReading2.rc < 0 by decide, show exampleReading2.cpu.ncpus ≠ 0 by decide]
    exact ⟨by decide, by decide, by decide⟩

/-- C4, as stated, fails: with `user = sys = 2 ^ 62`, one core and factor 2 every scaled
value fits in 64 bits, but the scaled tick sum `2 ^ 63 + 2 ^ 63` wraps to 0, so the stored
total differs from the one of the unscaled reading. -/
theorem scaling_breaks_when_sum_wraps :
    2 * 2 ^ 62 < U64 ∧ 2 * 0 < U64 ∧ 2 * 1 < U64 ∧
    used_system_cpu_sysdep CpuState.start SystemInfo_T.zero
        { rc := 1, cpu := { user := 2 * 2 ^ 62, sys := 2 * 2 ^ 62, wait := 2 * 0, idle := 2 * 0,
                            ncpus := 2 * 1 } } ≠
      used_system_cpu_sysdep CpuState.start SystemInfo_T.zero
        { rc := 1, cpu := { user := 2 ^ 62, sys := 2 ^ 62, wait := 0, idle := 0, ncpus := 1 } } := by
  decide

/-- C4, amended: for every state and output record, every core count `n >= 1`, every factor
`k >= 1` and every raw reading whose scaled tick sum `k * (user + sys + wait + idle)` fits in
64 bits, the call on `(k*user, k*sys, k*wait, k*idle, k*n)` gives the same return value, the
same percentages and the same new statics as the call on `(user, sys, wait, idle, n)`. -/
theorem scaling_invariant (st : CpuState) (si : SystemInfo_T) (rc : Int)
    (user sys wait idle n k : Nat) (hn : 1 ≤ n) (hk : 1 ≤ k)
    (hsum : k * (user + sys + wait + idle) < U64) :
    used_system_cpu_sysdep st si
        { rc := rc, cpu := { user := k * user, sys := k * sys, wait := k * wait, idle := k * idle,
                             ncpus := k * n } } =
      used_system_cpu_sysdep st si
        { rc := rc, cpu := { user := user, sys := sys, wait := wait, idle := idle, ncpus := n } } := by
  have hk0 : 0 < k := hk
  have hs1 : user + sys + wait + idle < U64 :=
    lt_of_le_of_lt (Nat.le_mul_of_pos_left _ hk0) hsum
  have hs2 : k * user + k * sys + k * wait + k * idle = k * (user + sys + wait + idle) := by ring
  have ht : cpu_total_new { user := k * user, sys := k * sys, wait := k * wait, idle := k * idle,
                            ncpus := k * n } =
      cpu_total_new { user := user, sys := sys, wait := wait, idle := idle, ncpus := n } := by
    simp only [cpu_total_new]
    rw [hs2, Nat.mod_eq_of_lt hsum, Nat.mod_eq_of_lt hs1, Nat.mul_div_mul_left _ _ hk0]
  have hz : (k * n = 0) ↔ (n = 0) := by
    constructor
    · intro h
      rcases Nat.mul_eq_zero.mp h with h | h <;> omega
    · intro h
      omega
  simp only [used_system_cpu_sysdep, cpu_total_delta, ht, Nat.mul_div_mul_left _ _ hk0, hz]

theorem scaling_invariant_witness :
    used_system_cpu_sysdep
        { cpu_initialized := true, cpu_total_old := 5000, cpu_user_old := 500,
          cpu_syst_old := 250, cpu_wait_old := 50 }
        SystemInfo_T.zero
        { rc := 1, cpu := { user := 3 * 1100, sys := 3 * 500, wait := 3 * 100, idle := 3 * 8400,
                            ncpus := 3 * 2 } } =
      used_system_cpu_sysdep
        { cpu_initialized := true, cpu_total_old := 5000, cpu_user_old := 500,
          cpu_syst_old := 250, cpu_wait_old := 50 }
        SystemInfo_T.zero
        { rc := 1, cpu := { user := 1100, sys := 500, wait := 100, idle := 8400, ncpus := 2 } } :=
  scaling_invariant _ _ 1 1100 500 100 8400 2 3 (by decide) (by decide) (by decide)

/-- C5: every successful call (return code of the query not negative, core count at least 1),
first call or not and whatever the total delta is, returns `TRUE` and leaves the statics equal
to the per-core-normalized values of the reading just taken, with the initialized flag true:
the new statics depend on the reading only, and the total delta of the next call is taken
against the total of this reading. -/
theorem statics_overwritten (st : CpuState) (si : SystemInfo_T) (q : CpuQuery)
    (next : perfstat_cpu_total_t) (hrc : 0 ≤ q.rc) (hn : 1 ≤ q.cpu.ncpus) :
    (used_system_cpu_sysdep st si q).map (fun r => (r.1, r.2.1)) =
        some (TRUE,
          { cpu_initialized := true,
            cpu_total_old := ((q.cpu.user + q.cpu.sys + q.cpu.wait + q.cpu.idle) % 2 ^ 64)
                                / q.cpu.ncpus,
            cpu_user_old := q.cpu.user / q.cpu.ncpus,
            cpu_syst_old := q.cpu.sys / q.cpu.ncpus,
            cpu_wait_old := q.cpu.wait / q.cpu.ncpus }) ∧
    (used_system_cpu_sysdep st si q).map (fun r => cpu_total_delta r.2.1 next) =
        some (sub64 (cpu_total_new next)
          (((q.cpu.user + q.cpu.sys + q.cpu.wait + q.cpu.idle) % 2 ^ 64) / q.cpu.ncpus)) := by
  have h1 : ¬ q.rc < 0 := not_lt.mpr hrc
  have h2 : ¬ q.cpu.ncpus = 0 := by omega
  constructor
  · simp only [used_system_cpu_sysdep, h1, h2, if_false, cpu_total_new, U64, Option.map_some']
  · simp only [used_system_cpu_sysdep, h1, h2, if_false, cpu_total_new, U64, Option.map_some',
      cpu_total_delta]

theorem statics_overwritten_witness :
    (used_system_cpu_sysdep
        { cpu_initialized := true, cpu_total_old := 9, cpu_user_old := 8,
          cpu_syst_old := 7, cpu_wait_old := 6 }
        SystemInfo_T.zero exampleReading1).map (fun r => (r.1, r.2.1)) =
        some (TRUE,
          { cpu_initialized := true,
            cpu_total_old := ((exampleReading1.cpu.user + exampleReading1.cpu.sys
                + exampleReading1.cpu.wait + exampleReading1.cpu.idle) % 2 ^ 64)
                                / exampleReading1.cpu.ncpus,
            cpu_user_old := exampleReading1.cpu.user / exampleReading1.cpu.ncpus,
            cpu_syst_old := exampleReading1.cpu.sys / exampleReading1.cpu.ncpus,
            cpu_wait_old := exampleReading1.cpu.wait / exampleReading1.cpu.ncpus }) ∧
    (used_system_cpu_sysdep
        { cpu_initialized := true, cpu_total_old := 9, cpu_user_old := 8,
          cpu_syst_old := 7, cpu_wait_old := 6 }
        SystemInfo_T.zero exampleReading1).map
          (fun r => cpu_total_delta r.2.1 exampleReading2.cpu) =
        some (sub64 (cpu_total_new exampleReading2.cpu)
          (((exampleReading1.cpu.user + exampleReading1.cpu.sys
                + exampleReading1.cpu.wait + exampleReading1.cpu.idle) % 2 ^ 64)
                                / exampleReading1.cpu.ncpus)) :=
  statics_overwritten _ _ exampleReading1 exampleReading2.cpu (by decide) (by decide)

/-- C16 fails on the code: when the query fails the call returns -1, which is not `FALSE` (0)
and which a caller testing the result as a boolean takes for success. -/
theorem failed_cpu_query_returns_minus_one :
    used_system_cpu_sysdep CpuState.start SystemInfo_T.zero
        { rc := -1, cpu := { user := 0, sys := 0, wait := 0, idle := 0, ncpus := 1 } } =
      some (-1, CpuState.start, SystemInfo_T.zero) ∧
    (-1 : Int) ≠ FALSE ∧ (-1 : Int) ≠ 0 := by
  decide

/-- C19: for an initialized previous sample and a successful reading with core count at least
1 whose normalized tick total equals the stored total, the call returns normally (no division
by zero: the integer divisions have a non-zero divisor and the floating-point quotient is not
evaluated), with return value `TRUE` and all three percentages exactly zero. In particular
two consecutive calls with the same reading report zero on the second call, from every state
and every output record. -/
theorem equal_totals_report_zero (st : CpuState) (si : SystemInfo_T) (q : CpuQuery)
    (hinit : st.cpu_initialized = true) (hrc : 0 ≤ q.rc) (hn : 1 ≤ q.cpu.ncpus)
    (heq : cpu_total_new q.cpu = st.cpu_total_old) :
    used_system_cpu_sysdep st si q =
        some (TRUE,
          { cpu_initialized := true, cpu_total_old := cpu_total_new q.cpu,
            cpu_user_old := q.cpu.user / q.cpu.ncpus, cpu_syst_old := q.cpu.sys / q.cpu.ncpus,
            cpu_wait_old := q.cpu.wait / q.cpu.ncpus },
          { si with total_cpu_user_percent := 0, total_cpu_syst_percent := 0,
                    total_cpu_wait_percent := 0 }) ∧
    ∀ (st0 : CpuState) (si0 : SystemInfo_T),
      (cpu_calls st0 si0 [q, q]).map
          (fun r => (r.2.total_cpu_user_percent, r.2.total_cpu_syst_percent,
                     r.2.total_cpu_wait_percent)) = some (0, 0, 0) := by
  have h1 : ¬ q.rc < 0 := not_lt.mpr hrc
  have h2 : ¬ q.cpu.ncpus = 0 := by omega
  constructor
  · have hd : cpu_total_delta st q.cpu = 0 := by
      unfold cpu_total_delta
      rw [heq]
      exact sub64_self _
    simp [used_system_cpu_sysdep, h1, h2, hinit, hd]
  · intro st0 si0
    simp [cpu_calls, used_system_cpu_sysdep, h1, h2, cpu_total_delta, sub64_self]

theorem equal_totals_report_zero_witness :
    used_system_cpu_sysdep
        { cpu_initialized := true, cpu_total_old := 5000, cpu_user_old := 400,
          cpu_syst_old := 300, cpu_wait_old := 50 }
        { SystemInfo_T.zero with total_cpu_user_percent := 7 } exampleReading1 =
        some (TRUE,
          { cpu_initialized := true, cpu_total_old := cpu_total_new exampleReading1.cpu,
            cpu_user_old := exampleReading1.cpu.user / exampleReading1.cpu.ncpus,
            cpu_syst_old := exampleReading1.cpu.sys / exampleReading1.cpu.ncpus,
            cpu_wait_old := exampleReading1.cpu.wait / exampleReading1.cpu.ncpus },
          { ({ SystemInfo_T.zero with total_cpu_user_percent := 7 } : SystemInfo_T) with
            total_cpu_user_percent := 0, total_cpu_syst_percent := 0,
            total_cpu_wait_percent := 0 }) ∧
    ∀ (st0 : CpuState) (si0 : SystemInfo_T),
      (cpu_calls st0 si0 [exampleReading1, exampleReading1]).map
          (fun r => (r.2.total_cpu_user_percent, r.2.total_cpu_syst_percent,
                     r.2.total_cpu_wait_percent)) = some (0, 0, 0) :=
  equal_totals_report_zero _ _ exampleReading1 rfl (by decide) (by decide) (by decide)

theorem cpu_percent_of_nonneg (a b : Nat) : 0 ≤ cpu_percent_of a b := by
  unfold cpu_percent_of
  exact Int.ofNat_nonneg _

theorem cpu_call_state (st : CpuState) (si : SystemInfo_T) (q : CpuQuery)
    (hrc : 0 ≤ q.rc) (hn : 1 ≤ q.cpu.ncpus) :
    ∃ si', used_system_cpu_sysdep st si q =
      some (TRUE,
        { cpu_initialized := true, cpu_total_old := cpu_total_new q.cpu,
          cpu_user_old := q.cpu.user / q.cpu.ncpus, cpu_syst_old := q.cpu.sys / q.cpu.ncpus,
          cpu_wait_old := q.cpu.wait / q.cpu.ncpus },
        si') := by
  have h1 : ¬ q.rc < 0 := not_lt.mpr hrc
  have h2 : ¬ q.cpu.ncpus = 0 := by omega
  simp only [used_system_cpu_sysdep, h1, h2, if_false]
  exact ⟨_, rfl⟩

/-- A call on an initialized state whose three category deltas do not exceed the total delta
reports percentages between 0 and 1000. -/
theorem percent_range_of_deltas (st : CpuState) (si : SystemInfo_T) (q : CpuQuery)
    (hinit : st.cpu_initialized = true) (hrc : 0 ≤ q.rc) (hn : 1 ≤ q.cpu.ncpus)
    (hu : sub64 (q.cpu.user / q.cpu.ncpus) st.cpu_user_old ≤ cpu_total_delta st q.cpu)
    (hs : sub64 (q.cpu.sys / q.cpu.ncpus) st.cpu_syst_old ≤ cpu_total_delta st q.cpu)
    (hw : sub64 (q.cpu.wait / q.cpu.ncpus) st.cpu_wait_old ≤ cpu_total_delta st q.cpu) :
    ∃ st' si', used_system_cpu_sysdep st si q = some (TRUE, st', si') ∧
      (0 ≤ si'.total_cpu_user_percent ∧ si'.total_cpu_user_percent ≤ 1000) ∧
      (0 ≤ si'.total_cpu_syst_percent ∧ si'.total_cpu_syst_percent ≤ 1000) ∧
      (0 ≤ si'.total_cpu_wait_percent ∧ si'.total_cpu_wait_percent ≤ 1000) := by
  have h1 : ¬ q.rc < 0 := not_lt.mpr hrc
  have h2 : ¬ q.cpu.ncpus = 0 := by omega
  by_cases hpos : 0 < cpu_total_delta st q.cpu
  · refine ⟨{ cpu_initialized := true, cpu_total_old := cpu_total_new q.cpu,
              cpu_user_old := q.cpu.user / q.cpu.ncpus, cpu_syst_old := q.cpu.sys / q.cpu.ncpus,
              cpu_wait_old := q.cpu.wait / q.cpu.ncpus },
      { si with
        total_cpu_user_percent :=
          cpu_percent_of (sub64 (q.cpu.user / q.cpu.ncpus) st.cpu_user_old)
            (cpu_total_delta st q.cpu)
        total_cpu_syst_percent :=
          cpu_percent_of (sub64 (q.cpu.sys / q.cpu.ncpus) st.cpu_syst_old)
            (cpu_total_delta st q.cpu)
        total_cpu_wait_percent :=
          cpu_percent_of (sub64 (q.cpu.wait / q.cpu.ncpus) st.cpu_wait_old)
            (cpu_total_delta st q.cpu) },
      by simp only [used_system_cpu_sysdep, h1, h2, hinit, hpos, if_true, if_false],
      ?_, ?_, ?_⟩
    · exact ⟨cpu_percent_of_nonneg _ _, cpu_percent_of_le _ _ hu hpos⟩
    · exact ⟨cpu_percent_of_nonneg _ _, cpu_percent_of_le _ _ hs hpos⟩
    · exact ⟨cpu_percent_of_nonneg _ _, cpu_percent_of_le _ _ hw hpos⟩
  · refine ⟨{ cpu_initialized := true, cpu_total_old := cpu_total_new q.cpu,
              cpu_user_old := q.cpu.user / q.cpu.ncpus, cpu_syst_old := q.cpu.sys / q.cpu.ncpus,
              cpu_wait_old := q.cpu.wait / q.cpu.ncpus },
      { si with total_cpu_user_percent := 0, total_cpu_syst_percent := 0,
                total_cpu_wait_percent := 0 },
      by simp only [used_system_cpu_sysdep, h1, h2, hinit, hpos, if_true, if_false],
      ?_, ?_, ?_⟩ <;> simp

/-- C15, as stated, fails, with and without a change of the core count; both reported values
fit the integer field. With the same core count 2 and non-decreasing counters (user 1 -> 4,
idle 1 -> 1) the integer divisions give a total delta of 1 and a user delta of 2, so the
second call reports a user percentage of 2000. With a core count that grows from 1 to 2 and
non-decreasing counters (user 0 -> 1500, idle 1000 -> 1000) the normalized total goes from
1000 to 1250 and the normalized user value from 0 to 750, so the second call reports a user
percentage of 3000. -/
theorem percent_exceeds_1000 :
    (cpu_calls CpuState.start SystemInfo_T.zero
        [{ rc := 1, cpu := { user := 1, sys := 0, wait := 0, idle := 1, ncpus := 2 } },
         { rc := 1, cpu := { user := 4, sys := 0, wait := 0, idle := 1, ncpus := 2 } }]).map
      (fun r => r.2.total_cpu_user_percent) = some 2000 ∧
    (cpu_calls CpuState.start SystemInfo_T.zero
        [{ rc := 1, cpu := { user := 0, sys := 0, wait := 0, idle := 1000, ncpus := 1 } },
         { rc := 1, cpu := { user := 1500, sys := 0, wait := 0, idle := 1000, ncpus := 2 } }]).map
      (fun r => r.2.total_cpu_user_percent) = some 3000 := by
  decide

/-- Two consecutive successful calls with one unchanged core count `n >= 1`, whose raw tick
counters are multiples of `n` that do not decrease and whose tick sum fits in 64 bits, report
percentages between 0 and 1000 on the second call. -/
theorem percent_range_of_multiples (st0 : CpuState) (si0 : SystemInfo_T) (rc1 rc2 : Int)
    (n u1 s1 w1 i1 u2 s2 w2 i2 : Nat)
    (hrc1 : 0 ≤ rc1) (hrc2 : 0 ≤ rc2) (hn : 1 ≤ n)
    (hu : u1 ≤ u2) (hs : s1 ≤ s2) (hw : w1 ≤ w2) (hi : i1 ≤ i2)
    (hsum : n * u2 + n * s2 + n * w2 + n * i2 < 2 ^ 64) :
    ∃ st2 si2,
      cpu_calls st0 si0
        [{ rc := rc1,
           cpu := { user := n * u1, sys := n * s1, wait := n * w1, idle := n * i1, ncpus := n } },
         { rc := rc2,
           cpu := { user := n * u2, sys := n * s2, wait := n * w2, idle := n * i2, ncpus := n } }]
        = some (st2, si2) ∧
      (0 ≤ si2.total_cpu_user_percent ∧ si2.total_cpu_user_percent ≤ 1000) ∧
      (0 ≤ si2.total_cpu_syst_percent ∧ si2.total_cpu_syst_percent ≤ 1000) ∧
      (0 ≤ si2.total_cpu_wait_percent ∧ si2.total_cpu_wait_percent ≤ 1000) := by
  have hn0 : 0 < n := hn
  have hrc1' : ¬ rc1 < 0 := not_lt.mpr hrc1
  have hnz : ¬ n = 0 := by omega
  have e2 : n * u2 + n * s2 + n * w2 + n * i2 = n * (u2 + s2 + w2 + i2) := by ring
  have e1 : n * u1 + n * s1 + n * w1 + n * i1 = n * (u1 + s1 + w1 + i1) := by ring
  have hT2 : u2 + s2 + w2 + i2 < U64 := by
    have : u2 + s2 + w2 + i2 ≤ n * (u2 + s2 + w2 + i2) := Nat.le_mul_of_pos_left _ hn0
    unfold U64
    omega
  have hsum1 : n * (u1 + s1 + w1 + i1) < U64 := by
    have : n * (u1 + s1 + w1 + i1) ≤ n * (u2 + s2 + w2 + i2) :=
      Nat.mul_le_mul_left _ (by omega)
    unfold U64
    omega
  have t1 : cpu_total_new
      { user := n * u1, sys := n * s1, wait := n * w1, idle := n * i1, ncpus := n } =
      u1 + s1 + w1 + i1 := by
    simp only [cpu_total_new]
    rw [e1, Nat.mod_eq_of_lt hsum1, Nat.mul_div_cancel_left _ hn0]
  have t2 : cpu_total_new
      { user := n * u2, sys := n * s2, wait := n * w2, idle := n * i2, ncpus := n } =
      u2 + s2 + w2 + i2 := by
    simp only [cpu_total_new]
    rw [e2, Nat.mod_eq_of_lt (by rw [← e2]; exact hsum), Nat.mul_div_cancel_left _ hn0]
  obtain ⟨si1, hfirst⟩ := cpu_call_state st0 si0
    { rc := rc1,
      cpu := { user := n * u1, sys := n * s1, wait := n * w1, idle := n * i1, ncpus := n } }
    hrc1 hn
  simp only [t1, Nat.mul_div_cancel_left _ hn0] at hfirst
  obtain ⟨st2, si2, hcall, hb⟩ := percent_range_of_deltas
    { cpu_initialized := true, cpu_total_old := u1 + s1 + w1 + i1, cpu_user_old := u1,
      cpu_syst_old := s1, cpu_wait_old := w1 }
    si1
    { rc := rc2,
      cpu := { user := n * u2, sys := n * s2, wait := n * w2, idle := n * i2, ncpus := n } }
    rfl hrc2 hn
    (by
      simp only [cpu_total_delta, t2, Nat.mul_div_cancel_left _ hn0]
      rw [sub64_of_le _ _ (by omega) hu, sub64_of_le _ _ hT2 (by omega)]
      omega)
    (by
      simp only [cpu_total_delta, t2, Nat.mul_div_cancel_left _ hn0]
      rw [sub64_of_le _ _ (by omega) hs, sub64_of_le _ _ hT2 (by omega)]
      omega)
    (by
      simp only [cpu_total_delta, t2, Nat.mul_div_cancel_left _ hn0]
      rw [sub64_of_le _ _ (by omega) hw, sub64_of_le _ _ hT2 (by omega)]
      omega)
  refine ⟨st2, si2, ?_, hb⟩
  simp only [cpu_calls, hfirst, hcall]

/-- C15, amended: for every pair of consecutive successful calls with core counts at least 1,
equal or not, in which each of the three per-core-normalized category deltas of the second
call (value now minus value of the first call, in unsigned 64-bit arithmetic) does not exceed
its total delta `cpu_total`, each of the three percentages reported by the second call lies
in 0..1000; this holds from every state and every output record before the first call. -/
theorem percent_in_range (st0 : CpuState) (si0 : SystemInfo_T) (q1 q2 : CpuQuery)
    (hrc1 : 0 ≤ q1.rc) (hrc2 : 0 ≤ q2.rc) (hn1 : 1 ≤ q1.cpu.ncpus) (hn2 : 1 ≤ q2.cpu.ncpus)
    (hu : sub64 (q2.cpu.user / q2.cpu.ncpus) (q1.cpu.user / q1.cpu.ncpus) ≤
      sub64 (cpu_total_new q2.cpu) (cpu_total_new q1.cpu))
    (hs : sub64 (q2.cpu.sys / q2.cpu.ncpus) (q1.cpu.sys / q1.cpu.ncpus) ≤
      sub64 (cpu_total_new q2.cpu) (cpu_total_new q1.cpu))
    (hw : sub64 (q2.cpu.wait / q2.cpu.ncpus) (q1.cpu.wait / q1.cpu.ncpus) ≤
      sub64 (cpu_total_new q2.cpu) (cpu_total_new q1.cpu)) :
    ∃ st2 si2,
      cpu_calls st0 si0 [q1, q2] = some (st2, si2) ∧
      (0 ≤ si2.total_cpu_user_percent ∧ si2.total_cpu_user_percent ≤ 1000) ∧
      (0 ≤ si2.total_cpu_syst_percent ∧ si2.total_cpu_syst_percent ≤ 1000) ∧
      (0 ≤ si2.total_cpu_wait_percent ∧ si2.total_cpu_wait_percent ≤ 1000) := by
  obtain ⟨si1, hfirst⟩ := cpu_call_state st0 si0 q1 hrc1 hn1
  obtain ⟨st2, si2, hcall, hb⟩ := percent_range_of_deltas
    { cpu_initialized := true, cpu_total_old := cpu_total_new q1.cpu,
      cpu_user_old := q1.cpu.user / q1.cpu.ncpus, cpu_syst_old := q1.cpu.sys / q1.cpu.ncpus,
      cpu_wait_old := q1.cpu.wait / q1.cpu.ncpus }
    si1 q2 rfl hrc2 hn2 hu hs hw
  refine ⟨st2, si2, ?_, hb⟩
  simp only [cpu_calls, hfirst, hcall]

theorem percent_in_range_witness :
    ∃ st2 si2,
      cpu_calls CpuState.start SystemInfo_T.zero
        [{ rc := 1,
           cpu := { user := 1001, sys := 501, wait := 101, idle := 8401, ncpus := 2 } },
         { rc := 1,
           cpu := { user := 2403, sys := 1101, wait := 203, idle := 17301, ncpus := 4 } }]
        = some (st2, si2) ∧
      (0 ≤ si2.total_cpu_user_percent ∧ si2.total_cpu_user_percent ≤ 1000) ∧
      (0 ≤ si2.total_cpu_syst_percent ∧ si2.total_cpu_syst_percent ≤ 1000) ∧
      (0 ≤ si2.total_cpu_wait_percent ∧ si2.total_cpu_wait_percent ≤ 1000) :=
  percent_in_range CpuState.start SystemInfo_T.zero
    { rc := 1, cpu := { user := 1001, sys := 501, wait := 101, idle := 8401, ncpus := 2 } }
    { rc := 1, cpu := { user := 2403, sys := 1101, wait := 203, idle := 17301, ncpus := 4 } }
    (by decide) (by decide) (by decide) (by decide) (by decide) (by decide) (by decide)

/-! ## Properties of `initprocesstree_sysdep` -/

theorem tree_loop_length (W page_size SZOMB PROCESS_ZOMBIE : Nat)
    (getuser : Nat → Option userinfo) (procs : List procentry64) (i : Nat) :
    (tree_loop W page_size SZOMB PROCESS_ZOMBIE getuser i procs).length = procs.length := by
  induction procs generalizing i with
  | nil => rfl
  | cons p ps ih => simp [tree_loop, ih]

theorem tree_loop_getElem? (W page_size SZOMB PROCESS_ZOMBIE : Nat)
    (getuser : Nat → Option userinfo) (procs : List procentry64) (i j : Nat) :
    (tree_loop W page_size SZOMB PROCESS_ZOMBIE getuser i procs)[j]? =
      (procs[j]?).map (tree_entry W page_size SZOMB PROCESS_ZOMBIE getuser (i + j)) := by
  induction procs generalizing i j with
  | nil => simp [tree_loop]
  | cons p ps ih =>
    cases j with
    | zero => simp [tree_loop]
    | succ j =>
      simp only [tree_loop, List.getElem?_cons_succ, ih]
      have e : i + 1 + j = i + (j + 1) := by omega
      rw [e]

theorem tree_entry_zombie (W page_size SZOMB PROCESS_ZOMBIE : Nat)
    (getuser : Nat → Option userinfo) (i : Nat) (p : procentry64) (hz : p.pi_state = SZOMB) :
    tree_entry W page_size SZOMB PROCESS_ZOMBIE getuser i p =
      { pid := p.pi_pid, ppid := p.pi_ppid, starttime := p.pi_start, cputime := 0,
        cpu_percent := 0, mem_kbyte := 0, status_flag := PROCESS_ZOMBIE } := by
  simp [tree_entry, hz]

/-- C6: for every list of records returned by the fill query and every index `i` whose record
is a zombie (`pi_state = SZOMB`), the call returns the number of records and entry `i` of the
snapshot has `mem_kbyte = 0`, `cputime = 0` and the `PROCESS_ZOMBIE` bits set; the entry is the
same for every answer the usage query `getuser` could give, which is not consulted for it. -/
theorem zombie_entry (W page_size SZOMB PROCESS_ZOMBIE : Nat) (discover : Int)
    (fill : Nat → Option (List procentry64)) (getuser : Nat → Option userinfo)
    (procs : List procentry64) (i : Nat) (p : procentry64)
    (hd : 0 ≤ discover) (hf : fill discover.toNat = some procs) (hi : procs[i]? = some p)
    (hz : p.pi_state = SZOMB) :
    ∃ pt e,
      initprocesstree_sysdep W page_size SZOMB PROCESS_ZOMBIE discover fill getuser =
        ((procs.length : Int), some pt) ∧
      pt[i]? = some e ∧ e.mem_kbyte = 0 ∧ e.cputime = 0 ∧
      e.status_flag &&& PROCESS_ZOMBIE = PROCESS_ZOMBIE ∧
      ∀ getuser' : Nat → Option userinfo,
        (initprocesstree_sysdep W page_size SZOMB PROCESS_ZOMBIE discover fill getuser').2.bind
          (fun t => t[i]?) = some e := by
  have h1 : ¬ discover < 0 := not_lt.mpr hd
  refine ⟨tree_loop W page_size SZOMB PROCESS_ZOMBIE getuser 0 procs,
    { pid := p.pi_pid, ppid := p.pi_ppid, starttime := p.pi_start, cputime := 0,
      cpu_percent := 0, mem_kbyte := 0, status_flag := PROCESS_ZOMBIE }, ?_, ?_, rfl, rfl, ?_, ?_⟩
  · simp [initprocesstree_sysdep, h1, hf]
  · rw [tree_loop_getElem?, hi, Option.map_some', tree_entry_zombie _ _ _ _ _ _ _ hz]
  · exact Nat.and_self _
  · intro getuser'
    simp only [initprocesstree_sysdep, h1, if_false, hf, Option.some_bind]
    rw [tree_loop_getElem?, hi, Option.map_some', tree_entry_zombie _ _ _ _ _ _ _ hz]

theorem zombie_entry_witness :
    ∃ pt e,
      initprocesstree_sysdep 64 4096 5 1 2
          (fun _ => some [⟨1, 0, 100, 1⟩, ⟨7, 1, 200, 5⟩]) (fun _ => some ⟨10, 20, 1, 2, 3, 4⟩) =
        ((([⟨1, 0, 100, 1⟩, ⟨7, 1, 200, 5⟩] : List procentry64).length : Int), some pt) ∧
      pt[1]? = some e ∧ e.mem_kbyte = 0 ∧ e.cputime = 0 ∧
      e.status_flag &&& 1 = 1 ∧
      ∀ getuser' : Nat → Option userinfo,
        (initprocesstree_sysdep 64 4096 5 1 2
          (fun _ => some [⟨1, 0, 100, 1⟩, ⟨7, 1, 200, 5⟩]) getuser').2.bind
          (fun t => t[1]?) = some e :=
  zombie_entry 64 4096 5 1 2 (fun _ => some [⟨1, 0, 100, 1⟩, ⟨7, 1, 200, 5⟩])
    (fun _ => some ⟨10, 20, 1, 2, 3, 4⟩) [⟨1, 0, 100, 1⟩, ⟨7, 1, 200, 5⟩] 1 ⟨7, 1, 200, 5⟩
    (by decide) rfl rfl rfl

/-- C7, as stated, fails: when discovery reports 0 processes the call stores an empty snapshot
and returns 0, and when the discovery query fails it returns `FALSE`, which is the same value:
the two return values are not distinct. When discovery reports 0 and the fill query fails, the
call is a failure and stores no snapshot. -/
theorem empty_tree_returns_failure_value :
    initprocesstree_sysdep 64 4096 5 1 0 (fun _ => some []) (fun _ => none) = (0, some []) ∧
    initprocesstree_sysdep 64 4096 5 1 (-1) (fun _ => some []) (fun _ => none) = (FALSE, none) ∧
    initprocesstree_sysdep 64 4096 5 1 0 (fun _ => none) (fun _ => none) = (FALSE, none) ∧
    (initprocesstree_sysdep 64 4096 5 1 0 (fun _ => some []) (fun _ => none)).1 =
      (initprocesstree_sysdep 64 4096 5 1 (-1) (fun _ => some []) (fun _ => none)).1 := by
  decide

/-- C7, amended: when discovery reports 0 processes and the fill query, given a buffer of 0
records, succeeds (it can then write no record), the call stores a snapshot of length 0 and
returns 0; this is the value `FALSE` = 0 that the call returns, storing nothing, whenever the
discovery query or the fill query fails, as the doc comment of the function says
("treesize>0 if succeeded otherwise =0"). -/
theorem empty_tree_returns_zero (W page_size SZOMB PROCESS_ZOMBIE : Nat)
    (fill : Nat → Option (List procentry64)) (getuser : Nat → Option userinfo)
    (procs : List procentry64) (hf : fill 0 = some procs) (hlen : procs.length ≤ 0) :
    initprocesstree_sysdep W page_size SZOMB PROCESS_ZOMBIE 0 fill getuser = (0, some []) ∧
    ∀ (discover' : Int) (fill' : Nat → Option (List procentry64)),
      discover' < 0 ∨ fill' discover'.toNat = none →
        initprocesstree_sysdep W page_size SZOMB PROCESS_ZOMBIE discover' fill' getuser =
          (0, none) := by
  have hnil : procs = [] := List.length_eq_zero.mp (Nat.le_zero.mp hlen)
  subst hnil
  constructor
  · simp [initprocesstree_sysdep, hf, tree_loop]
  · intro discover' fill' h
    by_cases hd : discover' < 0
    · simp [initprocesstree_sysdep, hd, FALSE]
    · rcases h with h | h
      · exact absurd h hd
      · simp [initprocesstree_sysdep, hd, h, FALSE]

theorem empty_tree_returns_zero_witness :
    initprocesstree_sysdep 64 4096 5 1 0 (fun _ => some []) (fun _ => none) = (0, some []) ∧
    ∀ (discover' : Int) (fill' : Nat → Option (List procentry64)),
      discover' < 0 ∨ fill' discover'.toNat = none →
        initprocesstree_sysdep 64 4096 5 1 discover' fill' (fun _ => none) = (0, none) :=
  empty_tree_returns_zero 64 4096 5 1 (fun _ => some []) (fun _ => none) [] rfl (by decide)

theorem tree_entry_congr (W page_size SZOMB PROCESS_ZOMBIE : Nat)
    (g g' : Nat → Option userinfo) (j : Nat) (p : procentry64) (h : g j = g' j) :
    tree_entry W page_size SZOMB PROCESS_ZOMBIE g j p =
      tree_entry W page_size SZOMB PROCESS_ZOMBIE g' j p := by
  simp [tree_entry, h]

/-- C14: when the usage query fails for the non-zombie record `i`, the call still returns the
number of records and stores the whole snapshot, of the same length as when the query for
record `i` succeeds with any answer `u`; entry `i` has `mem_kbyte = 0`, `cputime = 0` and no
`PROCESS_ZOMBIE` bit, and every other entry is the same in both snapshots. -/
theorem failed_getuser_entry (W page_size SZOMB PROCESS_ZOMBIE : Nat) (discover : Int)
    (fill : Nat → Option (List procentry64)) (getuser : Nat → Option userinfo)
    (procs : List procentry64) (i : Nat) (p : procentry64) (u : userinfo)
    (hd : 0 ≤ discover) (hf : fill discover.toNat = some procs) (hi : procs[i]? = some p)
    (hz : p.pi_state ≠ SZOMB) (hfail : getuser i = none) :
    ∃ pt pt' e,
      initprocesstree_sysdep W page_size SZOMB PROCESS_ZOMBIE discover fill getuser =
        ((procs.length : Int), some pt) ∧
      initprocesstree_sysdep W page_size SZOMB PROCESS_ZOMBIE discover fill
          (Function.update getuser i (some u)) = ((procs.length : Int), some pt') ∧
      pt.length = procs.length ∧ pt'.length = procs.length ∧
      pt[i]? = some e ∧ e.mem_kbyte = 0 ∧ e.cputime = 0 ∧
      e.status_flag &&& PROCESS_ZOMBIE = 0 ∧
      ∀ j, j ≠ i → pt[j]? = pt'[j]? := by
  have h1 : ¬ discover < 0 := not_lt.mpr hd
  refine ⟨tree_loop W page_size SZOMB PROCESS_ZOMBIE getuser 0 procs,
    tree_loop W page_size SZOMB PROCESS_ZOMBIE (Function.update getuser i (some u)) 0 procs,
    { pid := p.pi_pid, ppid := p.pi_ppid, starttime := p.pi_start, cputime := 0,
      cpu_percent := 0, mem_kbyte := 0, status_flag := 0 },
    ?_, ?_, tree_loop_length _ _ _ _ _ _ _, tree_loop_length _ _ _ _ _ _ _, ?_, rfl, rfl,
    Nat.zero_and _, ?_⟩
  · simp [initprocesstree_sysdep, h1, hf]
  · simp [initprocesstree_sysdep, h1, hf]
  · rw [tree_loop_getElem?, hi, Option.map_some']
    simp [tree_entry, hz, hfail]
  · intro j hj
    rw [tree_loop_getElem?, tree_loop_getElem?]
    cases hpj : procs[j]? with
    | none => rfl
    | some pj =>
      simp only [Option.map_some', Nat.zero_add]
      rw [tree_entry_congr W page_size SZOMB PROCESS_ZOMBIE getuser
        (Function.update getuser i (some u)) j pj (by simp [Function.update, hj])]

theorem failed_getuser_entry_witness :
    ∃ pt pt' e,
      initprocesstree_sysdep 64 4096 5 1 2
          (fun _ => some [⟨1, 0, 100, 1⟩, ⟨7, 1, 200, 1⟩])
          (fun j => if j = 1 then none else some ⟨10, 20, 1, 2, 3, 4⟩) =
        ((([⟨1, 0, 100, 1⟩, ⟨7, 1, 200, 1⟩] : List procentry64).length : Int), some pt) ∧
      initprocesstree_sysdep 64 4096 5 1 2
          (fun _ => some [⟨1, 0, 100, 1⟩, ⟨7, 1, 200, 1⟩])
          (Function.update (fun j => if j = 1 then none else some ⟨10, 20, 1, 2, 3, 4⟩) 1
            (some ⟨30, 40, 5, 6, 7, 8⟩)) =
        ((([⟨1, 0, 100, 1⟩, ⟨7, 1, 200, 1⟩] : List procentry64).length : Int), some pt') ∧
      pt.length = ([⟨1, 0, 100, 1⟩, ⟨7, 1, 200, 1⟩] : List procentry64).length ∧
      pt'.length = ([⟨1, 0, 100, 1⟩, ⟨7, 1, 200, 1⟩] : List procentry64).length ∧
      pt[1]? = some e ∧ e.mem_kbyte = 0 ∧ e.cputime = 0 ∧
      e.status_flag &&& 1 = 0 ∧
      ∀ j, j ≠ 1 → pt[j]? = pt'[j]? :=
  failed_getuser_entry 64 4096 5 1 2 (fun _ => some [⟨1, 0, 100, 1⟩, ⟨7, 1, 200, 1⟩])
    (fun j => if j = 1 then none else some ⟨10, 20, 1, 2, 3, 4⟩)
    [⟨1, 0, 100, 1⟩, ⟨7, 1, 200, 1⟩] 1 ⟨7, 1, 200, 1⟩ ⟨30, 40, 5, 6, 7, 8⟩
    (by decide) rfl rfl (by decide) rfl

theorem tree_entry_ids (W page_size SZOMB PROCESS_ZOMBIE : Nat)
    (getuser : Nat → Option userinfo) (i : Nat) (p : procentry64) :
    (tree_entry W page_size SZOMB PROCESS_ZOMBIE getuser i p).pid = p.pi_pid ∧
    (tree_entry W page_size SZOMB PROCESS_ZOMBIE getuser i p).ppid = p.pi_ppid ∧
    (tree_entry W page_size SZOMB PROCESS_ZOMBIE getuser i p).starttime = p.pi_start := by
  unfold tree_entry
  split_ifs
  · exact ⟨rfl, rfl, rfl⟩
  · cases getuser i <;> exact ⟨rfl, rfl, rfl⟩

/-- C18: for every successful fill query returning the records `procs`, the call returns their
number, the stored snapshot has exactly that many entries, and entry `i` carries the pid, the
parent pid and the start time of record `i`, for every `i`: the sequence of these triples is
the one of the records, in the order of the kernel. -/
theorem snapshot_keeps_order (W page_size SZOMB PROCESS_ZOMBIE : Nat) (discover : Int)
    (fill : Nat → Option (List procentry64)) (getuser : Nat → Option userinfo)
    (procs : List procentry64) (hd : 0 ≤ discover) (hf : fill discover.toNat = some procs) :
    ∃ pt,
      initprocesstree_sysdep W page_size SZOMB PROCESS_ZOMBIE discover fill getuser =
        ((procs.length : Int), some pt) ∧
      pt.length = procs.length ∧
      (∀ (i : Nat) (p : procentry64), procs[i]? = some p →
        ∃ e : ProcessTree_T, pt[i]? = some e ∧ e.pid = p.pi_pid ∧ e.ppid = p.pi_ppid ∧
          e.starttime = p.pi_start) ∧
      pt.map (fun e => (e.pid, e.ppid, e.starttime)) =
        procs.map (fun p => (p.pi_pid, p.pi_ppid, p.pi_start)) := by
  have h1 : ¬ discover < 0 := not_lt.mpr hd
  refine ⟨tree_loop W page_size SZOMB PROCESS_ZOMBIE getuser 0 procs, ?_,
    tree_loop_length _ _ _ _ _ _ _, ?_, ?_⟩
  · simp [initprocesstree_sysdep, h1, hf]
  · intro i p hi
    refine ⟨tree_entry W page_size SZOMB PROCESS_ZOMBIE getuser (0 + i) p, ?_,
      tree_entry_ids _ _ _ _ _ _ _⟩
    rw [tree_loop_getElem?, hi, Option.map_some']
  · apply List.ext_getElem?
    intro i
    rw [List.getElem?_map, List.getElem?_map, tree_loop_getElem?]
    cases procs[i]? with
    | none => rfl
    | some p =>
      simp only [Option.map_some']
      obtain ⟨a, b, c⟩ := tree_entry_ids W page_size SZOMB PROCESS_ZOMBIE getuser (0 + i) p
      rw [a, b, c]

theorem snapshot_keeps_order_witness :
    ∃ pt,
      initprocesstree_sysdep 64 4096 5 1 2
          (fun _ => some [⟨9, 0, 100, 1⟩, ⟨7, 9, 200, 5⟩]) (fun _ => some ⟨10, 20, 1, 2, 3, 4⟩) =
        ((([⟨9, 0, 100, 1⟩, ⟨7, 9, 200, 5⟩] : List procentry64).length : Int), some pt) ∧
      pt.length = ([⟨9, 0, 100, 1⟩, ⟨7, 9, 200, 5⟩] : List procentry64).length ∧
      (∀ (i : Nat) (p : procentry64),
        ([⟨9, 0, 100, 1⟩, ⟨7, 9, 200, 5⟩] : List procentry64)[i]? = some p →
        ∃ e : ProcessTree_T, pt[i]? = some e ∧ e.pid = p.pi_pid ∧ e.ppid = p.pi_ppid ∧
          e.starttime = p.pi_start) ∧
      pt.map (fun e => (e.pid, e.ppid, e.starttime)) =
        ([⟨9, 0, 100, 1⟩, ⟨7, 9, 200, 5⟩] : List procentry64).map
          (fun p => (p.pi_pid, p.pi_ppid, p.pi_start)) :=
  snapshot_keeps_order 64 4096 5 1 2 (fun _ => some [⟨9, 0, 100, 1⟩, ⟨7, 9, 200, 5⟩])
    (fun _ => some ⟨10, 20, 1, 2, 3, 4⟩) [⟨9, 0, 100, 1⟩, ⟨7, 9, 200, 5⟩] (by decide) rfl

/-! ## Properties of `used_system_memory_sysdep` -/

/-- C8 fails on the code: with no swap device configured the call returns `TRUE` and zeroes
`swap_kbyte_max`, but returns before `total_swap_kbyte` is assigned, so a record that held
`total_swap_kbyte = 5000` before the call still holds 5000 after it. -/
theorem no_swap_keeps_stale_used :
    used_system_memory_sysdep 64 4096 1 2
        { rc := 1, mem := { real_total := 1000, real_free := 200, numperm := 300 } }
        (fun _ => { count := some 0, list := none }) 1
        { SystemInfo_T.zero with swap_kbyte_max := 8000, total_swap_kbyte := 5000 } =
      some (TRUE,
        { SystemInfo_T.zero with
          swap_kbyte_max := 0, total_swap_kbyte := 5000, total_mem_kbyte := 2000 }) := by
  decide

/-- On a source that races on every attempt the `again:` block is never left. -/
theorem swap_again_racing (W page_size ST_INDEL ST_DOINGDEL : Nat) (swap : Nat → SwapAttempt)
    (hrace : ∀ k, ∃ num ents, (swap k).count = some (num + 1) ∧ (swap k).list = some ents ∧
      num + 1 < ents.length)
    (fuel k : Nat) (si : SystemInfo_T) :
    swap_again W page_size ST_INDEL ST_DOINGDEL swap fuel k si = none := by
  induction fuel generalizing k with
  | zero => rfl
  | succ fuel ih =>
    obtain ⟨num, ents, hc, hl, hlt⟩ := hrace k
    simp [swap_again, hc, hl, hlt, ih]

/-- Attempts that race only cost fuel: after `j` racing attempts the block continues with
attempt `k + j`. In particular the block is left as soon as an attempt does not race. -/
theorem swap_again_skip (W page_size ST_INDEL ST_DOINGDEL : Nat) (swap : Nat → SwapAttempt)
    (fuel j k : Nat) (si : SystemInfo_T)
    (hrace : ∀ i, i < j → ∃ num ents, (swap (k + i)).count = some (num + 1) ∧
      (swap (k + i)).list = some ents ∧ num + 1 < ents.length) :
    swap_again W page_size ST_INDEL ST_DOINGDEL swap (fuel + j) k si =
      swap_again W page_size ST_INDEL ST_DOINGDEL swap fuel (k + j) si := by
  induction j generalizing k with
  | zero => rfl
  | succ j ih =>
    obtain ⟨num, ents, hc, hl, hlt⟩ := hrace 0 (Nat.succ_pos j)
    simp only [Nat.add_zero] at hc hl
    have hstep : swap_again W page_size ST_INDEL ST_DOINGDEL swap (fuel + j + 1) k si =
        swap_again W page_size ST_INDEL ST_DOINGDEL swap (fuel + j) (k + 1) si := by
      simp [swap_again, hc, hl, hlt]
    have hrest : ∀ i, i < j → ∃ num ents, (swap (k + 1 + i)).count = some (num + 1) ∧
        (swap (k + 1 + i)).list = some ents ∧ num + 1 < ents.length := by
      intro i hi
      have := hrace (i + 1) (Nat.succ_lt_succ hi)
      rwa [show k + (i + 1) = k + 1 + i by omega] at this
    rw [show fuel + (j + 1) = fuel + j + 1 by omega, hstep, ih (k + 1) hrest,
      show k + 1 + j = k + (j + 1) by omega]

/-- C9 fails on the code: on a counter source whose list call reports more entries than the
count call on every attempt, no number of passes through `again:` lets the call return; the
retry has no bound and the call loops forever. -/
theorem racing_swap_never_returns (W page_size ST_INDEL ST_DOINGDEL : Nat) (fuel : Nat)
    (si : SystemInfo_T) :
    used_system_memory_sysdep W page_size ST_INDEL ST_DOINGDEL
        { rc := 1, mem := { real_total := 1000, real_free := 200, numperm := 300 } }
        racingSwap fuel si = none := by
  have hrace : ∀ k, ∃ num ents, (racingSwap k).count = some (num + 1) ∧
      (racingSwap k).list = some ents ∧ num + 1 < ents.length :=
    fun _ => ⟨0, _, rfl, rfl, by decide⟩
  simp [used_system_memory_sysdep, swap_again_racing _ _ _ _ _ hrace]

theorem swap_counted_iff (ST_INDEL ST_DOINGDEL : Nat) (e : swapent) :
    swap_counted ST_INDEL ST_DOINGDEL e = true ↔
      (e.ste_flags &&& ST_INDEL = 0 ∧ e.ste_flags &&& ST_DOINGDEL = 0) := by
  simp [swap_counted]

theorem counted_used_le (ST_INDEL ST_DOINGDEL : Nat) (ents : List swapent) :
    counted_used ST_INDEL ST_DOINGDEL ents ≤ counted_pages ST_INDEL ST_DOINGDEL ents := by
  induction ents with
  | nil => simp [counted_used, counted_pages]
  | cons e es ih =>
    unfold counted_used counted_pages at *
    by_cases hc : e.ste_flags &&& ST_INDEL = 0 ∧ e.ste_flags &&& ST_DOINGDEL = 0
    · simp only [List.filter_cons, hc, and_self, decide_True, if_true, List.map_cons,
        List.sum_cons]
      omega
    · simp only [List.filter_cons, hc, decide_False, Bool.false_eq_true, if_false]
      exact ih

theorem swap_sum_eq (ST_INDEL ST_DOINGDEL : Nat) (ents : List swapent) (t u : Nat)
    (ht : t < U64) (hu : u < U64)
    (hfree : ∀ e ∈ ents, e.ste_flags &&& ST_INDEL = 0 → e.ste_flags &&& ST_DOINGDEL = 0 →
      e.ste_free ≤ e.ste_pages) :
    swap_sum ST_INDEL ST_DOINGDEL ents (t, u) =
      ((t + counted_pages ST_INDEL ST_DOINGDEL ents) % U64,
       (u + counted_used ST_INDEL ST_DOINGDEL ents) % U64) := by
  induction ents generalizing t u with
  | nil => simp [swap_sum, counted_pages, counted_used, Nat.mod_eq_of_lt ht, Nat.mod_eq_of_lt hu]
  | cons e es ih =>
    have hes : ∀ e ∈ es, e.ste_flags &&& ST_INDEL = 0 → e.ste_flags &&& ST_DOINGDEL = 0 →
        e.ste_free ≤ e.ste_pages := fun x hx => hfree x (List.mem_cons_of_mem _ hx)
    have hpos : 0 < U64 := by unfold U64; positivity
    by_cases hc : e.ste_flags &&& ST_INDEL = 0 ∧ e.ste_flags &&& ST_DOINGDEL = 0
    · have hc' : swap_counted ST_INDEL ST_DOINGDEL e = true := (swap_counted_iff _ _ _).mpr hc
      have hf := hfree e (List.mem_cons_self _ _) hc.1 hc.2
      rw [swap_sum, if_pos hc', ih _ _ (Nat.mod_lt _ hpos) (Nat.mod_lt _ hpos) hes]
      have ep : counted_pages ST_INDEL ST_DOINGDEL (e :: es) =
          e.ste_pages + counted_pages ST_INDEL ST_DOINGDEL es := by
        simp [counted_pages, List.filter_cons, hc]
      have eu : counted_used ST_INDEL ST_DOINGDEL (e :: es) =
          (e.ste_pages - e.ste_free) + counted_used ST_INDEL ST_DOINGDEL es := by
        simp [counted_used, List.filter_cons, hc]
      rw [ep, eu]
      generalize counted_pages ST_INDEL ST_DOINGDEL es = P
      generalize counted_used ST_INDEL ST_DOINGDEL es = Q
      unfold sub64 U64
      norm_num
      constructor <;> omega
    · have hc' : ¬ swap_counted ST_INDEL ST_DOINGDEL e = true :=
        fun h => hc ((swap_counted_iff _ _ _).mp h)
      rw [swap_sum, if_neg hc', ih _ _ ht hu hes]
      have ep : counted_pages ST_INDEL ST_DOINGDEL (e :: es) =
          counted_pages ST_INDEL ST_DOINGDEL es := by
        simp [counted_pages, List.filter_cons, hc]
      have eu : counted_used ST_INDEL ST_DOINGDEL (e :: es) =
          counted_used ST_INDEL ST_DOINGDEL es := by
        simp [counted_used, List.filter_cons, hc]
      rw [ep, eu]

/-- C10, as stated, fails, in three ways.
One counted entry of `2 ^ 52` pages of 4096 bytes makes the 64-bit product
`total * page_size` wrap to 0, so `swap_kbyte_max` is 0 and not `2 ^ 52 * 4096 / 1024`.
One counted entry of `2 ^ 53 + 1` pages of 1024 bytes gives a byte count `2 ^ 63 + 1024` that
`double` rounds to `2 ^ 63`, so `swap_kbyte_max` is `2 ^ 53` and not `2 ^ 53 + 1`.
One counted entry with `ste_pages = 0` and `ste_free = 2048` makes `used` wrap, so
`total_swap_kbyte` is `2 ^ 54 - 2048`. -/
theorem swap_total_wraps :
    ((used_system_memory_sysdep 64 4096 1 2
        { rc := 1, mem := { real_total := 1000, real_free := 200, numperm := 300 } }
        (fun _ => { count := some 1, list := some [⟨0, 2 ^ 52, 0⟩] }) 1 SystemInfo_T.zero).map
      (fun r => (r.1, r.2.swap_kbyte_max)) = some (TRUE, 0) ∧
     counted_pages 1 2 [⟨0, 2 ^ 52, 0⟩] * 4096 / 1024 = 2 ^ 54) ∧
    ((used_system_memory_sysdep 64 1024 1 2
        { rc := 1, mem := { real_total := 1000, real_free := 200, numperm := 300 } }
        (fun _ => { count := some 1, list := some [⟨0, 2 ^ 53 + 1, 0⟩] }) 1
        SystemInfo_T.zero).map
      (fun r => (r.1, r.2.swap_kbyte_max)) = some (TRUE, 2 ^ 53) ∧
     counted_pages 1 2 [⟨0, 2 ^ 53 + 1, 0⟩] * 1024 / 1024 = 2 ^ 53 + 1) ∧
    ((used_system_memory_sysdep 64 1024 1 2
        { rc := 1, mem := { real_total := 1000, real_free := 200, numperm := 300 } }
        (fun _ => { count := some 1, list := some [⟨0, 0, 2048⟩] }) 1 SystemInfo_T.zero).map
      (fun r => (r.1, r.2.total_swap_kbyte)) = some (TRUE, 2 ^ 54 - 2048) ∧
     counted_used 1 2 [⟨0, 0, 2048⟩] * 1024 / 1024 = 0) := by
  decide

/-- C10, amended: when the memory query succeeds, the count call reports `num >= 1` devices and
the list call returns at most `num` entries (no retry), and moreover every entry that carries
neither `ST_INDEL` nor `ST_DOINGDEL` has `ste_free <= ste_pages` and the byte total (pages of
those entries times `page_size`) is below `2 ^ 53` and fits an `unsigned long`, the call
returns `TRUE` with `swap_kbyte_max` = (sum of `ste_pages` over those entries) * `page_size`
/ 1024 and `total_swap_kbyte` = (sum of `ste_pages - ste_free` over those entries) *
`page_size` / 1024; entries carrying either flag contribute to neither. -/
theorem swap_totals (W page_size ST_INDEL ST_DOINGDEL : Nat) (memq : MemQuery)
    (swap : Nat → SwapAttempt) (fuel : Nat) (si : SystemInfo_T) (num : Nat)
    (ents : List swapent)
    (hm : 1 ≤ memq.rc) (hc : (swap 0).count = some num) (hnum : 1 ≤ num)
    (hl : (swap 0).list = some ents) (hlen : ents.length ≤ num)
    (hfree : ∀ e ∈ ents, e.ste_flags &&& ST_INDEL = 0 → e.ste_flags &&& ST_DOINGDEL = 0 →
      e.ste_free ≤ e.ste_pages)
    (h53 : counted_pages ST_INDEL ST_DOINGDEL ents * page_size < 2 ^ 53)
    (hW : counted_pages ST_INDEL ST_DOINGDEL ents * page_size < 2 ^ W) :
    (used_system_memory_sysdep W page_size ST_INDEL ST_DOINGDEL memq swap (fuel + 1) si).map
        (fun r => (r.1, r.2.swap_kbyte_max, r.2.total_swap_kbyte)) =
      some (TRUE, counted_pages ST_INDEL ST_DOINGDEL ents * page_size / 1024,
        counted_used ST_INDEL ST_DOINGDEL ents * page_size / 1024) := by
  obtain ⟨m, rfl⟩ : ∃ m, num = m + 1 := ⟨num - 1, by omega⟩
  have h1 : ¬ memq.rc < 1 := not_lt.mpr hm
  have h2 : ¬ m + 1 < ents.length := not_lt.mpr hlen
  have hpos : 0 < U64 := by unfold U64; positivity
  have hsum := swap_sum_eq ST_INDEL ST_DOINGDEL ents 0 0 hpos hpos hfree
  simp only [Nat.zero_add] at hsum
  have hle := counted_used_le ST_INDEL ST_DOINGDEL ents
  -- the accumulated sums times the page size are the exact products
  have hP : counted_pages ST_INDEL ST_DOINGDEL ents % U64 * page_size =
      counted_pages ST_INDEL ST_DOINGDEL ents * page_size := by
    rcases Nat.eq_zero_or_pos page_size with h0 | h0
    · simp [h0]
    · have : counted_pages ST_INDEL ST_DOINGDEL ents < U64 :=
        lt_of_le_of_lt (Nat.le_mul_of_pos_right _ h0)
          (lt_trans h53 (by unfold U64; norm_num))
      rw [Nat.mod_eq_of_lt this]
  have hQ : counted_used ST_INDEL ST_DOINGDEL ents % U64 * page_size =
      counted_used ST_INDEL ST_DOINGDEL ents * page_size := by
    rcases Nat.eq_zero_or_pos page_size with h0 | h0
    · simp [h0]
    · have : counted_used ST_INDEL ST_DOINGDEL ents < U64 :=
        lt_of_le_of_lt (le_trans hle (Nat.le_mul_of_pos_right _ h0))
          (lt_trans h53 (by unfold U64; norm_num))
      rw [Nat.mod_eq_of_lt this]
  have hQle : counted_used ST_INDEL ST_DOINGDEL ents * page_size ≤
      counted_pages ST_INDEL ST_DOINGDEL ents * page_size := Nat.mul_le_mul_right _ hle
  simp only [used_system_memory_sysdep, h1, if_false, swap_again, hc, hl, h2, hsum,
    Option.map_some']
  rw [swap_kbyte_of_exact _ _ _ (by rw [hP]; exact h53) (by rw [hP]; exact hW), hP,
    swap_kbyte_of_exact _ _ _ (by rw [hQ]; exact lt_of_le_of_lt hQle h53)
      (by rw [hQ]; exact lt_of_le_of_lt hQle hW), hQ]

theorem swap_totals_witness :
    (used_system_memory_sysdep 64 4096 1 2
        { rc := 1, mem := { real_total := 1000, real_free := 200, numperm := 300 } }
        (fun _ => { count := some 3,
                    list := some [⟨0, 100, 40⟩, ⟨1, 50, 10⟩, ⟨0, 30, 30⟩] })
        (0 + 1) SystemInfo_T.zero).map
        (fun r => (r.1, r.2.swap_kbyte_max, r.2.total_swap_kbyte)) =
      some (TRUE, counted_pages 1 2 [⟨0, 100, 40⟩, ⟨1, 50, 10⟩, ⟨0, 30, 30⟩] * 4096 / 1024,
        counted_used 1 2 [⟨0, 100, 40⟩, ⟨1, 50, 10⟩, ⟨0, 30, 30⟩] * 4096 / 1024) :=
  swap_totals 64 4096 1 2
    { rc := 1, mem := { real_total := 1000, real_free := 200, numperm := 300 } }
    (fun _ => { count := some 3, list := some [⟨0, 100, 40⟩, ⟨1, 50, 10⟩, ⟨0, 30, 30⟩] })
    0 SystemInfo_T.zero 3 [⟨0, 100, 40⟩, ⟨1, 50, 10⟩, ⟨0, 30, 30⟩]
    (by decide) rfl (by decide) rfl (by decide) (by decide) (by decide) (by decide)

theorem swap_races_iff (a : SwapAttempt) :
    swap_races a = true ↔
      ∃ num ents, a.count = some (num + 1) ∧ a.list = some ents ∧ num + 1 < ents.length := by
  unfold swap_races
  constructor
  · intro h
    split at h
    · next num ents hc hl => exact ⟨num, ents, hc, hl, of_decide_eq_true h⟩
    · exact absurd h (by simp)
  · rintro ⟨num, ents, hc, hl, hlt⟩
    simp [hc, hl, hlt]

/-- The swap part of the call never touches `total_mem_kbyte`. -/
theorem swap_again_total_mem (W page_size ST_INDEL ST_DOINGDEL : Nat)
    (swap : Nat → SwapAttempt) (fuel k : Nat) (si : SystemInfo_T) (r : Int × SystemInfo_T)
    (h : swap_again W page_size ST_INDEL ST_DOINGDEL swap fuel k si = some r) :
    r.2.total_mem_kbyte = si.total_mem_kbyte := by
  induction fuel generalizing k with
  | zero => simp [swap_again] at h
  | succ fuel ih =>
    unfold swap_again at h
    split at h
    · simp only [Option.some.injEq] at h; rw [← h]
    · simp only [Option.some.injEq] at h; rw [← h]
    · split at h
      · simp only [Option.some.injEq] at h; rw [← h]
      · split_ifs at h
        · exact ih _ h
        · simp only [Option.some.injEq] at h; rw [← h]

/-- An attempt that does not race leaves the `again:` block. -/
theorem swap_again_returns (W page_size ST_INDEL ST_DOINGDEL : Nat)
    (swap : Nat → SwapAttempt) (fuel k : Nat) (si : SystemInfo_T)
    (h : swap_races (swap k) = false) :
    ∃ r, swap_again W page_size ST_INDEL ST_DOINGDEL swap (fuel + 1) k si = some r := by
  unfold swap_again
  split
  · exact ⟨_, rfl⟩
  · exact ⟨_, rfl⟩
  · next num hc =>
    split
    · exact ⟨_, rfl⟩
    · next ents hl =>
      have hnot : ¬ num + 1 < ents.length := by
        intro hlt
        have := (swap_races_iff (swap k)).mpr ⟨num, ents, hc, hl, hlt⟩
        rw [h] at this
        exact absurd this (by simp)
      rw [if_neg hnot]
      exact ⟨_, rfl⟩

/-- C17, as stated, fails: with a page size of 1536 bytes and 500 used pages the call reports
500 KB, not `500 * 1536 / 1024 = 750`; with a page size of 512 bytes it reports 0, not 250. -/
theorem used_memory_divides_page_size_first :
    (used_system_memory_sysdep 64 1536 1 2
        { rc := 1, mem := { real_total := 1000, real_free := 200, numperm := 300 } }
        (fun _ => { count := some 0, list := none }) 1 SystemInfo_T.zero).map
      (fun r => (r.1, r.2.total_mem_kbyte)) = some (TRUE, 500) ∧
    (1000 - 200 - 300) * 1536 / 1024 = 750 ∧
    (used_system_memory_sysdep 64 512 1 2
        { rc := 1, mem := { real_total := 1000, real_free := 200, numperm := 300 } }
        (fun _ => { count := some 0, list := none }) 1 SystemInfo_T.zero).map
      (fun r => (r.1, r.2.total_mem_kbyte)) = some (TRUE, 0) ∧
    (1000 - 200 - 300) * 512 / 1024 = 250 := by
  decide

/-- C17, amended: for every page size and every successful memory query with
`real_free + numperm <= real_total`, whenever the call returns it reports `total_mem_kbyte`
= `(real_total - real_free - numperm) * (page_size / 1024)`, the page size being divided by
1024 first, provided this product fits an `unsigned long` of at most 64 bits; and the call
does return, with that value, as soon as one attempt of the swap queries does not race. When
`page_size` is a multiple of 1024 the value is
`(real_total - real_free - numperm) * page_size / 1024`. -/
theorem used_memory_kbyte (W page_size ST_INDEL ST_DOINGDEL : Nat) (memq : MemQuery)
    (swap : Nat → SwapAttempt) (si : SystemInfo_T)
    (hm : 1 ≤ memq.rc) (hW : W ≤ 64) (hrt : memq.mem.real_total < 2 ^ 64)
    (hfit : memq.mem.real_free + memq.mem.numperm ≤ memq.mem.real_total)
    (hprod : (memq.mem.real_total - memq.mem.real_free - memq.mem.numperm)
      * (page_size / 1024) < 2 ^ W) :
    (∀ fuel r,
      used_system_memory_sysdep W page_size ST_INDEL ST_DOINGDEL memq swap fuel si = some r →
        r.2.total_mem_kbyte =
          (memq.mem.real_total - memq.mem.real_free - memq.mem.numperm) * (page_size / 1024)) ∧
    (∀ j fuel, (∀ i, i < j → swap_races (swap i) = true) → swap_races (swap j) = false →
      ∃ r,
        used_system_memory_sysdep W page_size ST_INDEL ST_DOINGDEL memq swap (fuel + 1 + j) si
          = some r ∧
        r.2.total_mem_kbyte =
          (memq.mem.real_total - memq.mem.real_free - memq.mem.numperm) * (page_size / 1024)) ∧
    (1024 ∣ page_size →
      (memq.mem.real_total - memq.mem.real_free - memq.mem.numperm) * (page_size / 1024) =
        (memq.mem.real_total - memq.mem.real_free - memq.mem.numperm) * page_size / 1024) := by
  have h1 : ¬ memq.rc < 1 := not_lt.mpr hm
  have hrt' : memq.mem.real_total < U64 := hrt
  have hs1 : sub64 memq.mem.real_total memq.mem.real_free =
      memq.mem.real_total - memq.mem.real_free := sub64_of_le _ _ hrt' (by omega)
  have hs2 : sub64 (memq.mem.real_total - memq.mem.real_free) memq.mem.numperm =
      memq.mem.real_total - memq.mem.real_free - memq.mem.numperm :=
    sub64_of_le _ _ (by omega) (by omega)
  have hWle : 2 ^ W ≤ U64 := by
    unfold U64
    exact Nat.pow_le_pow_right (by norm_num) hW
  have hval : ((sub64 (sub64 memq.mem.real_total memq.mem.real_free) memq.mem.numperm
      * (page_size / 1024)) % U64) % 2 ^ W =
      (memq.mem.real_total - memq.mem.real_free - memq.mem.numperm) * (page_size / 1024) := by
    rw [hs1, hs2, Nat.mod_eq_of_lt (lt_of_lt_of_le hprod hWle), Nat.mod_eq_of_lt hprod]
  have hall : ∀ fuel r,
      used_system_memory_sysdep W page_size ST_INDEL ST_DOINGDEL memq swap fuel si = some r →
        r.2.total_mem_kbyte =
          (memq.mem.real_total - memq.mem.real_free - memq.mem.numperm) * (page_size / 1024) := by
    intro fuel r h
    simp only [used_system_memory_sysdep, h1, if_false] at h
    rw [swap_again_total_mem _ _ _ _ _ _ _ _ _ h]
    exact hval
  refine ⟨hall, ?_, ?_⟩
  · intro j fuel hbefore hj
    have hskip := swap_again_skip W page_size ST_INDEL ST_DOINGDEL swap (fuel + 1) j 0
      { si with
        total_mem_kbyte :=
          ((sub64 (sub64 memq.mem.real_total memq.mem.real_free) memq.mem.numperm
              * (page_size / 1024)) % U64) % 2 ^ W }
      (fun i hi => by
        rw [Nat.zero_add]
        exact (swap_races_iff _).mp (hbefore i hi))
    obtain ⟨r, hr⟩ := swap_again_returns W page_size ST_INDEL ST_DOINGDEL swap fuel (0 + j)
      { si with
        total_mem_kbyte :=
          ((sub64 (sub64 memq.mem.real_total memq.mem.real_free) memq.mem.numperm
              * (page_size / 1024)) % U64) % 2 ^ W }
      (by rw [Nat.zero_add]; exact hj)
    have hcall : used_system_memory_sysdep W page_size ST_INDEL ST_DOINGDEL memq swap
        (fuel + 1 + j) si = some r := by
      simp only [used_system_memory_sysdep, h1, if_false]
      rw [hskip, hr]
    exact ⟨r, hcall, hall _ _ hcall⟩
  · rintro ⟨c, hc⟩
    rw [hc, Nat.mul_div_cancel_left _ (by norm_num : 0 < 1024), ← Nat.mul_assoc,
      Nat.mul_comm _ 1024, Nat.mul_assoc, Nat.mul_div_cancel_left _ (by norm_num : 0 < 1024)]

theorem used_memory_kbyte_witness :
    (∀ fuel r,
      used_system_memory_sysdep 64 4096 1 2
          { rc := 1, mem := { real_total := 1000, real_free := 200, numperm := 300 } }
          (fun _ => { count := some 0, list := none }) fuel SystemInfo_T.zero = some r →
        r.2.total_mem_kbyte = (1000 - 200 - 300) * (4096 / 1024)) ∧
    (∀ j fuel,
      (∀ i, i < j →
        swap_races ((fun _ => { count := some 0, list := none } : Nat → SwapAttempt) i) = true) →
      swap_races ((fun _ => { count := some 0, list := none } : Nat → SwapAttempt) j) = false →
      ∃ r,
        used_system_memory_sysdep 64 4096 1 2
            { rc := 1, mem := { real_total := 1000, real_free := 200, numperm := 300 } }
            (fun _ => { count := some 0, list := none }) (fuel + 1 + j) SystemInfo_T.zero
          = some r ∧
        r.2.total_mem_kbyte = (1000 - 200 - 300) * (4096 / 1024)) ∧
    (1024 ∣ 4096 →
      (1000 - 200 - 300) * (4096 / 1024) = (1000 - 200 - 300) * 4096 / 1024) :=
  used_memory_kbyte 64 4096 1 2
    { rc := 1, mem := { real_total := 1000, real_free := 200, numperm := 300 } }
    (fun _ => { count := some 0, list := none }) SystemInfo_T.zero
    (by decide) (by decide) (by decide) (by decide) (by decide)

/-- The conversion chain of the swap totals is monotone as long as the larger byte count
fits in 64 bits and its `double` fits the `unsigned long` it is cast to. -/
theorem swap_kbyte_of_mono (W page_size a b : Nat) (hab : a * page_size ≤ b * page_size)
    (hb64 : b * page_size < U64) (hbW : (F64.ofNat (b * page_size)).toNat < 2 ^ W) :
    swap_kbyte_of W page_size a ≤ swap_kbyte_of W page_size b := by
  unfold swap_kbyte_of
  rw [Nat.mod_eq_of_lt hb64, Nat.mod_eq_of_lt (lt_of_le_of_lt hab hb64)]
  have ht : (F64.ofNat (a * page_size)).toNat ≤ (F64.ofNat (b * page_size)).toNat :=
    toNat_mono _ _ (roundNE_den_pos _ _) (roundNE_den_pos _ _) (ofNat_mono _ _ hab)
  rw [Nat.mod_eq_of_lt hbW, Nat.mod_eq_of_lt (lt_of_le_of_lt ht hbW)]
  generalize (F64.ofNat (a * page_size)).toNat = ta at ht
  generalize (F64.ofNat (b * page_size)).toNat = tb at ht
  have hx : (F64.ofNat ta).num * (F64.ofNat tb).den ≤ (F64.ofNat tb).num * (F64.ofNat ta).den :=
    ofNat_mono ta tb ht
  have hcnum : 0 < (F64.ofNat 1024).num := roundNE_num_pos 1024 1 (by norm_num) one_ne_zero
  have hcden : 0 < (F64.ofNat 1024).den := roundNE_den_pos _ _
  have hxa : 0 < (F64.ofNat ta).den := roundNE_den_pos _ _
  have hxb : 0 < (F64.ofNat tb).den := roundNE_den_pos _ _
  apply toNat_mono _ _ (roundNE_den_pos _ _) (roundNE_den_pos _ _)
  apply roundNE_mono _ _ _ _ (Nat.mul_ne_zero hxa.ne' hcnum.ne')
    (Nat.mul_ne_zero hxb.ne' hcnum.ne')
  generalize F64.ofNat 1024 = c
  generalize F64.ofNat ta = xa at hx
  generalize F64.ofNat tb = xb at hx
  calc xa.num * c.den * (xb.den * c.num) = xa.num * xb.den * (c.den * c.num) := by ring
    _ ≤ xb.num * xa.den * (c.den * c.num) := Nat.mul_le_mul_right _ hx
    _ = xb.num * c.den * (xa.den * c.num) := by ring

/-- C20, as stated, fails: one counted entry of `2 ^ 52` pages with one free page and a page
size of 4096 satisfies `ste_free <= ste_pages`, but the product `total * page_size` wraps to
0 while `used * page_size` does not, so the call reports `swap_kbyte_max = 0` and
`total_swap_kbyte = 2 ^ 54 - 4`. -/
theorem used_swap_exceeds_total :
    (used_system_memory_sysdep 64 4096 1 2
        { rc := 1, mem := { real_total := 1000, real_free := 200, numperm := 300 } }
        (fun _ => { count := some 1, list := some [⟨0, 2 ^ 52, 1⟩] }) 1 SystemInfo_T.zero).map
      (fun r => (r.1, r.2.swap_kbyte_max, r.2.total_swap_kbyte)) =
      some (TRUE, 0, 2 ^ 54 - 4) := by
  decide

/-- C20, amended: for every positive page size and every swap table, listed by the first
attempt that does not race, in which each entry carrying neither deletion flag has
`ste_free <= ste_pages`, provided the total byte count (pages of those entries times
`page_size`) fits in 64 bits and, converted to `double`, fits an `unsigned long`, the call
returns `TRUE` and the used swap it reports (`total_swap_kbyte`) does not exceed the total
swap it reports (`swap_kbyte_max`). -/
theorem used_swap_le_total (W page_size ST_INDEL ST_DOINGDEL : Nat) (memq : MemQuery)
    (swap : Nat → SwapAttempt) (fuel j : Nat) (si : SystemInfo_T) (num : Nat)
    (ents : List swapent)
    (hm : 1 ≤ memq.rc) (hps : 0 < page_size)
    (hbefore : ∀ i, i < j → swap_races (swap i) = true)
    (hc : (swap j).count = some num) (hnum : 1 ≤ num)
    (hl : (swap j).list = some ents) (hlen : ents.length ≤ num)
    (hfree : ∀ e ∈ ents, e.ste_flags &&& ST_INDEL = 0 → e.ste_flags &&& ST_DOINGDEL = 0 →
      e.ste_free ≤ e.ste_pages)
    (h64 : counted_pages ST_INDEL ST_DOINGDEL ents * page_size < 2 ^ 64)
    (hW : (F64.ofNat (counted_pages ST_INDEL ST_DOINGDEL ents * page_size)).toNat < 2 ^ W) :
    ∃ r,
      used_system_memory_sysdep W page_size ST_INDEL ST_DOINGDEL memq swap (fuel + 1 + j) si =
        some r ∧
      r.1 = TRUE ∧ r.2.total_swap_kbyte ≤ r.2.swap_kbyte_max := by
  obtain ⟨m, rfl⟩ : ∃ m, num = m + 1 := ⟨num - 1, by omega⟩
  have h1 : ¬ memq.rc < 1 := not_lt.mpr hm
  have h2 : ¬ m + 1 < ents.length := not_lt.mpr hlen
  have hpos : 0 < U64 := by unfold U64; positivity
  have hsum := swap_sum_eq ST_INDEL ST_DOINGDEL ents 0 0 hpos hpos hfree
  simp only [Nat.zero_add] at hsum
  have hle := counted_used_le ST_INDEL ST_DOINGDEL ents
  have h64' : counted_pages ST_INDEL ST_DOINGDEL ents * page_size < U64 := h64
  have hP : counted_pages ST_INDEL ST_DOINGDEL ents < U64 :=
    lt_of_le_of_lt (Nat.le_mul_of_pos_right _ hps) h64'
  rw [Nat.mod_eq_of_lt hP, Nat.mod_eq_of_lt (lt_of_le_of_lt hle hP)] at hsum
  have hmono := swap_kbyte_of_mono W page_size _ _ (Nat.mul_le_mul_right page_size hle) h64' hW
  have hskip := swap_again_skip W page_size ST_INDEL ST_DOINGDEL swap (fuel + 1) j 0
    { si with
      total_mem_kbyte :=
        ((sub64 (sub64 memq.mem.real_total memq.mem.real_free) memq.mem.numperm
            * (page_size / 1024)) % U64) % 2 ^ W }
    (fun i hi => by
      rw [Nat.zero_add]
      exact (swap_races_iff _).mp (hbefore i hi))
  rw [Nat.zero_add] at hskip
  have hcall : ∃ si',
      used_system_memory_sysdep W page_size ST_INDEL ST_DOINGDEL memq swap (fuel + 1 + j) si =
        some (TRUE, si') ∧
      si'.swap_kbyte_max =
        swap_kbyte_of W page_size (counted_pages ST_INDEL ST_DOINGDEL ents) ∧
      si'.total_swap_kbyte =
        swap_kbyte_of W page_size (counted_used ST_INDEL ST_DOINGDEL ents) := by
    simp only [used_system_memory_sysdep, h1, if_false]
    rw [hskip]
    simp only [swap_again, hc, hl, h2, if_false, hsum]
    exact ⟨_, rfl, rfl, rfl⟩
  obtain ⟨si', hr, hmax, hused⟩ := hcall
  exact ⟨(TRUE, si'), hr, rfl, by rw [hmax, hused]; exact hmono⟩

theorem used_swap_le_total_witness :
    ∃ r,
      used_system_memory_sysdep 64 4096 1 2
          { rc := 1, mem := { real_total := 1000, real_free := 200, numperm := 300 } }
          (fun k => if k = 0 then { count := some 1, list := some [⟨0, 1, 0⟩, ⟨0, 1, 0⟩] }
                    else { count := some 3,
                           list := some [⟨0, 100, 40⟩, ⟨1, 50, 10⟩, ⟨0, 30, 30⟩] })
          (0 + 1 + 1) SystemInfo_T.zero = some r ∧
      r.1 = TRUE ∧ r.2.total_swap_kbyte ≤ r.2.swap_kbyte_max :=
  used_swap_le_total 64 4096 1 2
    { rc := 1, mem := { real_total := 1000, real_free := 200, numperm := 300 } }
    (fun k => if k = 0 then { count := some 1, list := some [⟨0, 1, 0⟩, ⟨0, 1, 0⟩] }
              else { count := some 3,
                     list := some [⟨0, 100, 40⟩, ⟨1, 50, 10⟩, ⟨0, 30, 30⟩] })
    0 1 SystemInfo_T.zero 3 [⟨0, 100, 40⟩, ⟨1, 50, 10⟩, ⟨0, 30, 30⟩]
    (by decide) (by decide) (by decide) rfl (by decide) rfl (by decide) (by decide)
    (by decide) (by decide)

/-! ## Properties of `getloadavg_sysdep` -/

/-- C11 fails on the code: when the query fails the call returns -1 but writes no slot, so a
slot that held 1.0 before the call still holds 1.0 and is not zero. -/
theorem failed_loadavg_keeps_slots :
    (getloadavg_sysdep 16 { rc := -1, loadavg := fun _ => 0 } (fun _ => F64.ofNat 1) 3).1 = -1 ∧
    ((getloadavg_sysdep 16 { rc := -1, loadavg := fun _ => 0 } (fun _ => F64.ofNat 1) 3).2 0)
      = F64.ofNat 1 ∧
    (F64.ofNat 1).toNat = 1 := by
  decide

/-- C12: for `nelem` in 1..3 and a successful query the call returns `TRUE`; slot `i` of the
array holds the converted `loadavg[i]` for `i < nelem` and its prior content for `i >= nelem`.
The result does not depend on `loadavg[i]` for `i >= nelem`: those elements are not read. -/
theorem loadavg_slots (SBITS : Nat) (q : LoadQuery) (loadv : Nat → F64) (nelem : Nat)
    (hrc : 1 ≤ q.rc) (h1 : 1 ≤ nelem) (h3 : nelem ≤ 3) :
    getloadavg_sysdep SBITS q loadv (nelem : Int) =
      (TRUE, fun i => if i < nelem then F64.ofNat (q.loadavg i / 2 ^ SBITS) else loadv i) ∧
    ∀ q' : LoadQuery, 1 ≤ q'.rc → (∀ i, i < nelem → q'.loadavg i = q.loadavg i) →
      getloadavg_sysdep SBITS q' loadv (nelem : Int) =
        getloadavg_sysdep SBITS q loadv (nelem : Int) := by
  have key : ∀ q : LoadQuery, 1 ≤ q.rc →
      getloadavg_sysdep SBITS q loadv (nelem : Int) =
        (TRUE, fun i => if i < nelem then F64.ofNat (q.loadavg i / 2 ^ SBITS) else loadv i) := by
    intro q hq
    have hq' : ¬ q.rc < 1 := not_lt.mpr hq
    have hcases : nelem = 1 ∨ nelem = 2 ∨ nelem = 3 := by omega
    rcases hcases with h | h | h <;> subst h <;>
      simp only [getloadavg_sysdep, hq', if_false, loadavg_of] <;>
      · refine Prod.ext rfl (funext fun i => ?_)
        rcases i with _ | _ | _ | i <;> simp [Function.update] <;> rw [if_neg (by omega)]
  refine ⟨key q hrc, ?_⟩
  intro q' hq' hagree
  rw [key q' hq', key q hrc]
  refine Prod.ext rfl (funext fun i => ?_)
  by_cases hi : i < nelem
  · simp [hi, hagree i hi]
  · simp [hi]

theorem loadavg_slots_witness :
    getloadavg_sysdep 16 { rc := 1, loadavg := fun i => 65536 * (i + 1) }
        (fun _ => F64.ofNat 9) ((2 : Nat) : Int) =
      (TRUE, fun i =>
        if i < 2 then
          F64.ofNat (({ rc := 1, loadavg := fun i => 65536 * (i + 1) } : LoadQuery).loadavg i
            / 2 ^ 16)
        else (fun _ => F64.ofNat 9) i) ∧
    ∀ q' : LoadQuery, 1 ≤ q'.rc →
      (∀ i, i < 2 →
        q'.loadavg i = ({ rc := 1, loadavg := fun i => 65536 * (i + 1) } : LoadQuery).loadavg i) →
      getloadavg_sysdep 16 q' (fun _ => F64.ofNat 9) ((2 : Nat) : Int) =
        getloadavg_sysdep 16 { rc := 1, loadavg := fun i => 65536 * (i + 1) }
          (fun _ => F64.ofNat 9) ((2 : Nat) : Int) :=
  loadavg_slots 16 { rc := 1, loadavg := fun i => 65536 * (i + 1) } (fun _ => F64.ofNat 9) 2
    (by decide) (by decide) (by decide)

/-- C13 fails on the code: with `SBITS = 16` a raw load average of `3 * 2 ^ 15` (1.5 in fixed
point) is divided as an integer before the conversion, so the slot holds 1.0, whose double is
`2 ^ 52 / 2 ^ 52`, and not 1.5: the fractional part is lost. -/
theorem loadavg_fraction_lost :
    (getloadavg_sysdep 16 { rc := 1, loadavg := fun _ => 3 * 2 ^ 15 } (fun _ => F64.ofNat 0) 1).2 0
      = ⟨2 ^ 52, 2 ^ 52⟩ ∧
    2 * (2 ^ 52) ≠ 3 * (2 ^ 52) ∧
    roundNE (3 * 2 ^ 15) (2 ^ 16) = ⟨3 * 2 ^ 51, 2 ^ 52⟩ := by
  decide

end SysdepAIX
